import Mathlib

/-!
Verification of the cross-reference validation and verdict engine of the
lucas-brain trade-document package validator.

The definitions below are a shallow embedding of the TypeScript source
(`src/mastra/workflows/package-validation.ts`): pure functions become Lean
functions over `List Char` / `String`, JavaScript numbers are modelled as
rationals, absent (`undefined`) values as `Option`, the external collaborators
(the JS `Date` runtime and the semantic goods-description comparator) as an
explicit environment record.  Regular-expression operations are embedded as
deterministic scanners implementing the exact leftmost-match semantics of the
specific patterns occurring in the source.
-/

namespace PackageValidation

/- ===== JavaScript-style character and string helpers ===== -/

/-- ASCII digit test, modelling the regex class `\d`. -/
def isDigitCh (c : Char) : Bool := '0' ≤ c && c ≤ '9'

/-- ASCII letter test, modelling the regex class `[A-Za-z]`. -/
def isAsciiLetterCh (c : Char) : Bool := ('a' ≤ c && c ≤ 'z') || ('A' ≤ c && c ≤ 'Z')

/-- Whitespace test, modelling the regex class `\s` and `String.prototype.trim`
on the ASCII whitespace characters that occur in the engine's data. -/
def isJsWs (c : Char) : Bool :=
  c = ' ' || c = '\t' || c = '\n' || c = '\r' || c = '\x0b' || c = '\x0c'

/-- JavaScript `String.prototype.trim` on the character list. -/
def jsTrimList (cs : List Char) : List Char :=
  ((cs.dropWhile isJsWs).reverse.dropWhile isJsWs).reverse

/-- JavaScript `String.prototype.trim`. -/
def jsTrim (s : String) : String := ⟨jsTrimList s.data⟩

/-- Lower-case one ASCII character, as `toLowerCase` does on the engine's data. -/
def lowerCh (c : Char) : Char :=
  if 'A' ≤ c && c ≤ 'Z' then Char.ofNat (c.toNat + 32) else c

/-- Upper-case one ASCII character, as `toUpperCase` does on the engine's data. -/
def upperCh (c : Char) : Char :=
  if 'a' ≤ c && c ≤ 'z' then Char.ofNat (c.toNat - 32) else c

/-- JavaScript `toLowerCase` (ASCII fragment). -/
def jsLower (s : String) : String := ⟨s.data.map lowerCh⟩

/-- JavaScript `toUpperCase` (ASCII fragment). -/
def jsUpper (s : String) : String := ⟨s.data.map upperCh⟩

/-- Does list `p` occur at the head of `l`? -/
def listStartsWith : List Char → List Char → Bool
  | [], _ => true
  | _ :: _, [] => false
  | a :: as, b :: bs => a = b && listStartsWith as bs

/-- If list `p` occurs at the head of `l`, return the remainder after it. -/
def dropStart : List Char → List Char → Option (List Char)
  | [], l => some l
  | _ :: _, [] => none
  | a :: as, b :: bs => if a = b then dropStart as bs else none

/-- Does `needle` occur as a contiguous segment of `hay`?  This models
JavaScript `String.prototype.includes`. -/
def listHasSeg (needle : List Char) : List Char → Bool
  | [] => needle.isEmpty
  | c :: cs => listStartsWith needle (c :: cs) || listHasSeg needle cs

/-- JavaScript `a.includes(b)` on strings. -/
def strContains (hay needle : String) : Bool := listHasSeg needle.data hay.data

/- ===== Date normalizer (`parseToISODate`) ===== -/

/-- The source's `MONTH_MAP` lookup (keys are already lower-cased by the caller). -/
def monthMap : String → Option String
  | "january" => some "01" | "jan" => some "01"
  | "february" => some "02" | "feb" => some "02"
  | "march" => some "03" | "mar" => some "03"
  | "april" => some "04" | "apr" => some "04"
  | "may" => some "05"
  | "june" => some "06" | "jun" => some "06"
  | "july" => some "07" | "jul" => some "07"
  | "august" => some "08" | "aug" => some "08"
  | "september" => some "09" | "sep" => some "09" | "sept" => some "09"
  | "october" => some "10" | "oct" => some "10"
  | "november" => some "11" | "nov" => some "11"
  | "december" => some "12" | "dec" => some "12"
  | _ => none

/-- Test for the anchored ISO pattern `^\d{4}-\d{2}-\d{2}$`. -/
def isIsoShape : List Char → Bool
  | [y1, y2, y3, y4, h1, m1, m2, h2, d1, d2] =>
    isDigitCh y1 && isDigitCh y2 && isDigitCh y3 && isDigitCh y4 &&
    h1 = '-' && isDigitCh m1 && isDigitCh m2 && h2 = '-' &&
    isDigitCh d1 && isDigitCh d2
  | _ => false

/-- Separator class `[\/\-]` of the numeric date pattern. -/
def isDateSep (c : Char) : Bool := c = '/' || c = '-'

/-- Anchored match of `^(\d{1,2})[\/\-](\d{1,2})[\/\-](\d{4})$`, returning the
three captured digit groups.  Greedy matching with backtracking reduces to:
each of the first two digit runs must have length 1 or 2, the final run must
have length exactly 4 and end the string. -/
def dmyMatch (cs : List Char) : Option (List Char × List Char × List Char) :=
  let d := cs.takeWhile isDigitCh
  if d.length = 0 || 2 < d.length then none else
  match cs.drop d.length with
  | s1 :: r1 =>
    if isDateSep s1 then
      let m := r1.takeWhile isDigitCh
      if m.length = 0 || 2 < m.length then none else
      match r1.drop m.length with
      | s2 :: r2 =>
        if isDateSep s2 then
          let y := r2.takeWhile isDigitCh
          if y.length = 4 && r2.drop 4 = [] then some (d, m, y) else none
        else none
      | [] => none
    else none
  | [] => none

/-- Attempt the pattern `(\d{1,2})\s+([A-Za-z]+)\s+(\d{4})` at the start of the
list.  Because the character classes of adjacent atoms are disjoint, greedy
matching with backtracking reduces to taking maximal runs, with the first run
required to have length 1 or 2 and the last to contain at least 4 digits. -/
def dayNameYearAt (cs : List Char) : Option (List Char × List Char × List Char) :=
  let d := cs.takeWhile isDigitCh
  if d.length = 0 || 2 < d.length then none else
  let r1 := cs.drop d.length
  let w1 := r1.takeWhile isJsWs
  if w1.length = 0 then none else
  let r2 := r1.drop w1.length
  let a := r2.takeWhile isAsciiLetterCh
  if a.length = 0 then none else
  let r3 := r2.drop a.length
  let w2 := r3.takeWhile isJsWs
  if w2.length = 0 then none else
  let r4 := r3.drop w2.length
  let y := r4.takeWhile isDigitCh
  if y.length < 4 then none else some (d, a, y.take 4)

/-- Leftmost unanchored search for `(\d{1,2})\s+([A-Za-z]+)\s+(\d{4})`. -/
def dayNameYearSearch : List Char → Option (List Char × List Char × List Char)
  | [] => none
  | c :: cs =>
    match dayNameYearAt (c :: cs) with
    | some r => some r
    | none => dayNameYearSearch cs

/-- Attempt the pattern `([A-Za-z]+)\s+(\d{1,2}),?\s+(\d{4})` at the start of
the list.  The optional comma must be consumed when present (backtracking to
the empty alternative can never succeed because `\s+` does not match a comma). -/
def nameDayYearAt (cs : List Char) : Option (List Char × List Char × List Char) :=
  let a := cs.takeWhile isAsciiLetterCh
  if a.length = 0 then none else
  let r1 := cs.drop a.length
  let w1 := r1.takeWhile isJsWs
  if w1.length = 0 then none else
  let r2 := r1.drop w1.length
  let d := r2.takeWhile isDigitCh
  if d.length = 0 || 2 < d.length then none else
  let r3 := r2.drop d.length
  let r3' := match r3 with
    | ',' :: t => t
    | _ => r3
  let w2 := r3'.takeWhile isJsWs
  if w2.length = 0 then none else
  let r4 := r3'.drop w2.length
  let y := r4.takeWhile isDigitCh
  if y.length < 4 then none else some (a, d, y.take 4)

/-- Leftmost unanchored search for `([A-Za-z]+)\s+(\d{1,2}),?\s+(\d{4})`. -/
def nameDayYearSearch : List Char → Option (List Char × List Char × List Char)
  | [] => none
  | c :: cs =>
    match nameDayYearAt (c :: cs) with
    | some r => some r
    | none => nameDayYearSearch cs

/-- JavaScript `padStart(2, "0")`. -/
def padStart2 (cs : List Char) : List Char := List.replicate (2 - cs.length) '0' ++ cs

/-- Assemble `` `${y}-${m}-${d}` `` where `m` and `d` still need padding. -/
def mkIsoFromDMY (y m d : List Char) : String :=
  ⟨y ++ '-' :: padStart2 m ++ '-' :: padStart2 d⟩

/-- Assemble `` `${y}-${m}-${d}` `` where `m` comes 2-padded from `monthMap`. -/
def mkIsoFromMonthName (y : List Char) (mm : String) (d : List Char) : String :=
  ⟨y ++ '-' :: mm.data ++ '-' :: padStart2 d⟩

/-- The source's `parseToISODate`: parse various date formats to ISO
`YYYY-MM-DD`, attempting the supported formats in fixed order and returning
the first success, or `none` when no format matches. -/
def parseToISODate (dateStr : String) : Option String :=
  if dateStr = "" then none else
  let s := jsTrim dateStr
  if isIsoShape s.data then some s else
  match dmyMatch s.data with
  | some (d, m, y) => some (mkIsoFromDMY y m d)
  | none =>
    let fromDayName :=
      match dayNameYearSearch s.data with
      | some (d, monName, y) =>
        (monthMap (jsLower ⟨monName⟩)).map (fun mm => mkIsoFromMonthName y mm d)
      | none => none
    match fromDayName with
    | some r => some r
    | none =>
      match nameDayYearSearch s.data with
      | some (monName, d, y) =>
        (monthMap (jsLower ⟨monName⟩)).map (fun mm => mkIsoFromMonthName y mm d)
      | none => none

/- ===== Entity normalizers ===== -/

/-- The country alternation of the port canonicalizer's first `replace`. -/
def countryAlts : List String :=
  ["uae", "india", "china", "kuwait", "qatar", "saudi arabia", "oman", "bahrain",
   "singapore", "malaysia", "indonesia", "usa", "uk", "germany", "netherlands",
   "france", "italy", "spain"]

/-- The facility alternation of the port canonicalizer's second `replace`. -/
def facilityAlts : List String :=
  ["terminal", "port", "harbour", "harbor", "anchorage", "roadstead"]

/-- The legal-entity alternation of the company-name canonicalizer. -/
def legalAlts : List String :=
  ["llc", "ltd", "limited", "inc", "incorporated", "corp", "corporation", "co",
   "company", "plc", "gmbh", "ag", "sa", "srl", "bv", "nv", "pty", "pvt", "private"]

/-- Does the whole list match `,?\s*(one of alts)\.?` to its end?  This is the
body of the end-anchored suffix patterns used by the canonicalizers; when
`comma` is false the leading `,?` is absent from the pattern.  The optional
comma and the maximal whitespace run are forced because no alternative starts
with a comma or whitespace. -/
def suffixTailMatch (comma : Bool) (alts : List String) (cs : List Char) : Bool :=
  let cs1 := if comma then (match cs with | ',' :: t => t | _ => cs) else cs
  let cs2 := cs1.dropWhile isJsWs
  alts.any (fun a =>
    match dropStart a.data cs2 with
    | some rest => rest = [] || rest = ['.']
    | none => false)

/-- Replace the leftmost end-anchored suffix match with the empty string: scan
start positions left to right and cut the list at the first position whose
tail matches. -/
def stripSuffixMatch (comma : Bool) (alts : List String) : List Char → List Char
  | [] => []
  | c :: cs =>
    if suffixTailMatch comma alts (c :: cs) then []
    else c :: stripSuffixMatch comma alts cs

/-- Collapse every whitespace run to a single space: `replace(/\s+/g, " ")`. -/
def collapseWs (cs : List Char) : List Char :=
  cs.foldr
    (fun c acc =>
      if isJsWs c then
        match acc with
        | ' ' :: _ => acc
        | _ => ' ' :: acc
      else c :: acc)
    []

/-- The source's `extractCorePort`: lower-case and trim, strip a trailing
country name, strip a trailing facility suffix, keep the text before the
first comma, trim and collapse whitespace. -/
def extractCorePort (val : String) : String :=
  if val = "" then "" else
  let port := (jsTrim (jsLower val)).data
  let port := stripSuffixMatch true countryAlts port
  let port := stripSuffixMatch false facilityAlts port
  let port := jsTrimList (port.takeWhile (· ≠ ','))
  ⟨collapseWs port⟩

/-- JavaScript `split(sep)` for a one-character separator (empty pieces kept). -/
def splitOnChar (sep : Char) : List Char → List String
  | [] => [""]
  | c :: rest =>
    let r := splitOnChar sep rest
    if c = sep then "" :: r
    else
      match r with
      | s :: ss => (⟨c :: s.data⟩ : String) :: ss
      | [] => [⟨[c]⟩]

/-- JavaScript `join(" ")`. -/
def joinSpace : List String → String
  | [] => ""
  | [s] => s
  | s :: t :: rest => s ++ " " ++ joinSpace (t :: rest)

/-- JavaScript `core.split(" ").slice(0, 2).join(" ")`. -/
def firstTwoWords (core : String) : String :=
  joinSpace ((splitOnChar ' ' core.data).take 2)

/-- The source's `portsMatch`: two port names match when either canonical form
is empty, they are equal, one contains the other, or their first two words
agree and have length at least 4. -/
def portsMatch (port1 port2 : String) : Bool :=
  let core1 := extractCorePort port1
  let core2 := extractCorePort port2
  if core1 = "" || core2 = "" then true
  else if core1 = core2 then true
  else if strContains core1 core2 || strContains core2 core1 then true
  else
    let words1 := firstTwoWords core1
    let words2 := firstTwoWords core2
    words1 = words2 && 4 ≤ words1.length

/-- Strip one trailing maximal run of the punctuation class `[.,;:]`. -/
def stripTrailingPunct (cs : List Char) : List Char :=
  ((cs.reverse.takeWhile (fun c => c = '.' || c = ',' || c = ';' || c = ':')).length
    |> fun n => cs.take (cs.length - n))

/-- The source's `extractCoreName`: lower-case and trim, strip a trailing
legal-entity suffix, strip trailing punctuation, trim. -/
def extractCoreName (val : String) : String :=
  if val = "" then "" else
  let name := (jsTrim (jsLower val)).data
  let name := stripSuffixMatch false legalAlts name
  let name := jsTrimList (stripTrailingPunct name)
  ⟨name⟩

/-- Keep only `[a-z0-9]`, the body of the `normalize` helper and of the
punctuation-stripped fallback in `namesMatch`. -/
def keepAlnum (cs : List Char) : List Char :=
  cs.filter (fun c => ('a' ≤ c && c ≤ 'z') || isDigitCh c)

/-- The source's `namesMatch`: equal cores, containment either way, or equal
after removing everything but `[a-z0-9]`; empty cores match everything. -/
def namesMatch (name1 name2 : String) : Bool :=
  let core1 := extractCoreName name1
  let core2 := extractCoreName name2
  if core1 = "" || core2 = "" then true
  else if core1 = core2 then true
  else if strContains core1 core2 || strContains core2 core1 then true
  else keepAlnum core1.data = keepAlnum core2.data

/-- The cross-reference step's `normalize` helper: lower-case and keep only
`[a-z0-9]`; `undefined` becomes the empty string. -/
def normalize (val : Option String) : String :=
  match val with
  | none => ""
  | some v => ⟨keepAlnum (jsLower v).data⟩

/-- The source's `isSpecified` filter: a value is absent when it is
`undefined`, empty, or one of the not-applicable sentinels. -/
def isSpecified (val : Option String) : Bool :=
  match val with
  | none => false
  | some v =>
    if v = "" then false else
    let lower := jsTrim (jsLower v)
    ¬(lower = "" || lower = "n/a" || lower = "na" || lower = "not specified" ||
      lower = "not applicable" || lower = "none" || lower = "-")

/- ===== Rational arithmetic =====

JavaScript numbers are modelled as exact rationals.  The operations below are
the ordinary field operations on the rationals, written through `mkRat` and
integer arithmetic so that they evaluate definitionally; the bridge theorems
immediately after each group prove them equal to the standard operations. -/

/-- Rational addition. -/
def qAdd (a b : ℚ) : ℚ := mkRat (a.num * b.den + b.num * a.den) (a.den * b.den)

/-- Rational subtraction. -/
def qSub (a b : ℚ) : ℚ := mkRat (a.num * b.den - b.num * a.den) (a.den * b.den)

/-- Rational multiplication. -/
def qMul (a b : ℚ) : ℚ := mkRat (a.num * b.num) (a.den * b.den)

/-- Rational division (division by zero yields zero, which no call site of the
engine reaches because every divisor is guarded by truthiness or
positivity). -/
def qDivJ (a b : ℚ) : ℚ :=
  if 0 ≤ b.num then mkRat (a.num * b.den) (a.den * b.num.natAbs)
  else mkRat (-(a.num * b.den)) (a.den * b.num.natAbs)

/-- Rational negation. -/
def qNeg (a : ℚ) : ℚ := mkRat (-a.num) a.den

/-- Rational absolute value, `Math.abs`. -/
def qAbs (a : ℚ) : ℚ := if a.num < 0 then qNeg a else a

/-- Rational strict comparison as a boolean. -/
def qLt (a b : ℚ) : Bool := a.num * b.den < b.num * a.den

/-- Rational floor, `Math.floor`. -/
def qFloor (a : ℚ) : ℤ := a.num / a.den

/-- Any `mkRat` value is the corresponding quotient. -/
theorem mkRat_as_div (n : ℤ) (d : ℕ) : mkRat n d = (n : ℚ) / (d : ℚ) := by
  rw [Rat.mkRat_eq_divInt, Rat.divInt_eq_div]
  norm_num

/-- The embedded addition is rational addition. -/
theorem qAdd_eq (a b : ℚ) : qAdd a b = a + b := by
  rw [qAdd, mkRat_as_div]
  conv_rhs => rw [← Rat.num_div_den a, ← Rat.num_div_den b]
  rw [div_add_div _ _ (Nat.cast_ne_zero.mpr a.den_ne_zero) (Nat.cast_ne_zero.mpr b.den_ne_zero)]
  push_cast
  ring_nf

/-- The embedded subtraction is rational subtraction. -/
theorem qSub_eq (a b : ℚ) : qSub a b = a - b := by
  rw [qSub, mkRat_as_div]
  conv_rhs => rw [← Rat.num_div_den a, ← Rat.num_div_den b]
  rw [div_sub_div _ _ (Nat.cast_ne_zero.mpr a.den_ne_zero) (Nat.cast_ne_zero.mpr b.den_ne_zero)]
  push_cast
  ring_nf

/-- The embedded multiplication is rational multiplication. -/
theorem qMul_eq (a b : ℚ) : qMul a b = a * b := by
  rw [qMul, mkRat_as_div]
  conv_rhs => rw [← Rat.num_div_den a, ← Rat.num_div_den b]
  rw [div_mul_div_comm]
  push_cast
  ring_nf

/-- The embedded negation is rational negation. -/
theorem qNeg_eq (a : ℚ) : qNeg a = -a := by
  rw [qNeg, mkRat_as_div]
  conv_rhs => rw [← Rat.num_div_den a]
  push_cast
  ring

/-- The embedded division is rational division. -/
theorem qDivJ_eq (a b : ℚ) : qDivJ a b = a / b := by
  have had : ((a.den : ℚ)) ≠ 0 := Nat.cast_ne_zero.mpr a.den_ne_zero
  have hbd : ((b.den : ℚ)) ≠ 0 := Nat.cast_ne_zero.mpr b.den_ne_zero
  rcases lt_trichotomy b.num 0 with hneg | hzero | hpos
  · have hbn : ((b.num : ℚ)) ≠ 0 := by
      exact_mod_cast Int.ne_of_lt hneg
    have hcast : ((b.num.natAbs : ℕ) : ℚ) = -(b.num : ℚ) := by
      rw [Int.cast_natAbs, Int.cast_abs]
      exact abs_of_neg (show (b.num : ℚ) < 0 by exact_mod_cast hneg)
    rw [qDivJ, if_neg (not_le.mpr hneg), mkRat_as_div]
    conv_rhs => rw [← Rat.num_div_den a, ← Rat.num_div_den b]
    push_cast [hcast]
    field_simp
  · have hb : b = 0 := by
      have := Rat.num_div_den b
      rw [hzero] at this
      simpa using this.symm
    subst hb
    simp [qDivJ, qNeg]
  · have hbn : ((b.num : ℚ)) ≠ 0 := by
      exact_mod_cast Int.ne_of_gt hpos
    have hcast : ((b.num.natAbs : ℕ) : ℚ) = (b.num : ℚ) := by
      rw [Int.cast_natAbs, Int.cast_abs]
      exact abs_of_pos (show (0 : ℚ) < (b.num : ℚ) by exact_mod_cast hpos)
    rw [qDivJ, if_pos (le_of_lt hpos), mkRat_as_div]
    conv_rhs => rw [← Rat.num_div_den a, ← Rat.num_div_den b]
    push_cast [hcast]
    field_simp

/-- The embedded absolute value is the rational absolute value. -/
theorem qAbs_eq (a : ℚ) : qAbs a = |a| := by
  rcases lt_or_le a.num 0 with h | h
  · rw [qAbs, if_pos h, qNeg_eq, abs_of_neg]
    exact Rat.num_neg.mp h
  · rw [qAbs, if_neg (not_lt.mpr h), abs_of_nonneg]
    exact Rat.num_nonneg.mp h

/-- The embedded comparison decides the rational order. -/
theorem qLt_eq (a b : ℚ) : qLt a b = decide (a < b) := by
  have key : (a.num * b.den < b.num * a.den) ↔ a < b := by
    constructor
    · intro h
      have := (div_lt_div_iff₀ (show (0:ℚ) < a.den by exact_mod_cast a.den_pos)
        (show (0:ℚ) < b.den by exact_mod_cast b.den_pos)).mpr
        (show (a.num : ℚ) * b.den < (b.num : ℚ) * a.den by exact_mod_cast h)
      rwa [Rat.num_div_den, Rat.num_div_den] at this
    · intro h
      have h2 : (a.num : ℚ) / a.den < (b.num : ℚ) / b.den := by
        rwa [Rat.num_div_den, Rat.num_div_den]
      have := (div_lt_div_iff₀ (show (0:ℚ) < a.den by exact_mod_cast a.den_pos)
        (show (0:ℚ) < b.den by exact_mod_cast b.den_pos)).mp h2
      exact_mod_cast this
  show decide (a.num * b.den < b.num * a.den) = decide (a < b)
  exact decide_eq_decide.mpr key

/-- The embedded floor is the rational floor. -/
theorem qFloor_eq (a : ℚ) : qFloor a = ⌊a⌋ := (Rat.floor_def).symm

/- ===== Numeric extraction ===== -/

/-- Decimal value of a digit list. -/
def digitsToNat (cs : List Char) : Nat :=
  cs.foldl (fun a c => a * 10 + (c.toNat - 48)) 0

/-- JavaScript `parseFloat` restricted to the tokens the engine feeds it:
non-empty strings over the characters `[0-9.]`.  The longest valid numeric
prefix is an optional integer part, an optional dot, and an optional fraction
part; a token with no digit before a second leading dot has no valid prefix
and yields `NaN`, modelled as `none`. -/
def parseFloatTok (cs : List Char) : Option ℚ :=
  let intPart := cs.takeWhile isDigitCh
  let rest := cs.drop intPart.length
  let fracPart :=
    match rest with
    | '.' :: r => r.takeWhile isDigitCh
    | _ => []
  if intPart.isEmpty && fracPart.isEmpty then none
  else some (mkRat ((digitsToNat intPart * 10 ^ fracPart.length + digitsToNat fracPart : ℕ) : ℤ)
    (10 ^ fracPart.length))

/-- Leftmost maximal run matching `[\d.]+`, the token taken by the numeric
extractors. -/
def firstDigitDotRun : List Char → Option (List Char)
  | [] => none
  | c :: cs =>
    if isDigitCh c || c = '.' then some ((c :: cs).takeWhile (fun x => isDigitCh x || x = '.'))
    else firstDigitDotRun cs

/-- The source's `extractAmount` (and the identical `extractQty`): strip
commas, take the first `[\d.]+` token and `parseFloat` it.  The source
returns `null` on no token and may return `NaN` from `parseFloat`; every call
site guards the result with JavaScript truthiness, under which `NaN` and
`null` behave identically, so both are modelled as `none` here. -/
def extractAmount (val : Option String) : Option ℚ :=
  match val with
  | none => none
  | some v =>
    match firstDigitDotRun (v.data.filter (· ≠ ',')) with
    | none => none
    | some tok => parseFloatTok tok

/-- JavaScript truthiness guard `if (x)` applied to an extracted number:
filters out `0` (and `NaN`/`null`, already `none`). -/
def truthyQ : Option ℚ → Option ℚ
  | none => none
  | some q => if q = 0 then none else some q

/-- JavaScript truthiness guard applied to an optional string: filters out the
empty string. -/
def truthyStr : Option String → Option String
  | none => none
  | some s => if s = "" then none else some s

/- ===== Quantity tolerance parsing ===== -/

/-- Attempt `([\d.]+)\s*(%|PCT|PERCENT)` at the start of the list
(case-insensitively), returning the captured numeric token.  Maximal runs are
forced because no alternative of the percent marker starts with a digit, a
dot or whitespace. -/
def tolMatchAt (cs : List Char) : Option (List Char) :=
  let tok := cs.takeWhile (fun c => isDigitCh c || c = '.')
  if tok.length = 0 then none else
  let r1 := (cs.drop tok.length).dropWhile isJsWs
  let r1l := r1.map lowerCh
  if listStartsWith ['%'] r1l || listStartsWith ['p', 'c', 't'] r1l ||
     listStartsWith ['p', 'e', 'r', 'c', 'e', 'n', 't'] r1l then some tok
  else none

/-- Leftmost search for `([\d.]+)\s*(%|PCT|PERCENT)`. -/
def tolSearch : List Char → Option (List Char)
  | [] => none
  | c :: cs =>
    match tolMatchAt (c :: cs) with
    | some tok => some tok
    | none => tolSearch cs

/- ===== Vessel-name prefix stripping ===== -/

/-- Strip a leading vessel marker `^(alt1|alt2|...)\s*` (alternatives tried in
order on the already lower-cased input), then the trailing `.trim()` of the
call sites. -/
def stripVesselMarker (alts : List String) (cs : List Char) : List Char :=
  let rec tryAlts : List String → Option (List Char)
    | [] => none
    | a :: rest =>
      match dropStart a.data cs with
      | some r => some (r.dropWhile isJsWs)
      | none => tryAlts rest
  match tryAlts alts with
  | some r => r
  | none => cs

/-- Vessel prefix alternation used by the LC-vs-B/L vessel check:
`^(mv|m\/v|mt|m\.v\.)\s*`. -/
def vesselAltsLC : List String := ["mv", "m/v", "mt", "m.v."]

/-- Vessel prefix alternation used by the LOI checks: `^(mv|m\/v|mt|m\.t\.)\s*`. -/
def vesselAltsLOI : List String := ["mv", "m/v", "mt", "m.t."]

/-- Vessel prefix alternation used by the remaining vessel checks:
`^(mv|m\/v|mt)\s*`. -/
def vesselAltsShort : List String := ["mv", "m/v", "mt"]

/-- Lower-case, trim, strip the vessel marker, trim: the LC-vs-B/L vessel
check first builds `v.toLowerCase().trim()` and then applies
`normalizeVessel`. -/
def normalizeVesselWith (alts : List String) (v : String) : String :=
  ⟨jsTrimList (stripVesselMarker alts (jsTrim (jsLower v)).data)⟩

/-- Lower-case, strip the vessel marker, trim: the LOI, ownership, tank and
miscellaneous vessel checks apply `replace` directly to `v.toLowerCase()`. -/
def normalizeVesselRaw (alts : List String) (v : String) : String :=
  ⟨jsTrimList (stripVesselMarker alts (jsLower v).data)⟩

/- ===== Data model ===== -/

/-- Issue severity. -/
inductive Severity where
  | minor | major | critical
  deriving DecidableEq, Repr

/-- Document / package verdict. -/
inductive Verdict where
  | GO | WAIT | NO_GO
  deriving DecidableEq, Repr

/-- Payment mode of a package. -/
inductive PaymentMode where
  | lc | no_lc
  deriving DecidableEq, Repr

/-- The closed `documentTypeEnum` of the source. -/
inductive DocumentType where
  | letter_of_credit | bill_of_lading | commercial_invoice | packing_list
  | certificate_of_origin
  | certificate_of_quality | certificate_of_quantity | insurance_certificate
  | inspection_certificate | bill_of_exchange | beneficiary_certificate
  | vessel_nomination | ullage_report | tank_calibration_certificate
  | loading_certificate | weight_certificate | non_manipulation_certificate
  | notice_of_readiness | letter_of_indemnity | weight_out_turn
  | export_license | certificate_of_ownership | cargo_manifest
  | vessel_q88 | time_log | masters_receipt | tank_cleanliness_certificate
  | charter_party | dip_test_report
  deriving DecidableEq, Repr

/-- The snake-case wire string of a document type. -/
def DocumentType.str : DocumentType → String
  | .letter_of_credit => "letter_of_credit"
  | .bill_of_lading => "bill_of_lading"
  | .commercial_invoice => "commercial_invoice"
  | .packing_list => "packing_list"
  | .certificate_of_origin => "certificate_of_origin"
  | .certificate_of_quality => "certificate_of_quality"
  | .certificate_of_quantity => "certificate_of_quantity"
  | .insurance_certificate => "insurance_certificate"
  | .inspection_certificate => "inspection_certificate"
  | .bill_of_exchange => "bill_of_exchange"
  | .beneficiary_certificate => "beneficiary_certificate"
  | .vessel_nomination => "vessel_nomination"
  | .ullage_report => "ullage_report"
  | .tank_calibration_certificate => "tank_calibration_certificate"
  | .loading_certificate => "loading_certificate"
  | .weight_certificate => "weight_certificate"
  | .non_manipulation_certificate => "non_manipulation_certificate"
  | .notice_of_readiness => "notice_of_readiness"
  | .letter_of_indemnity => "letter_of_indemnity"
  | .weight_out_turn => "weight_out_turn"
  | .export_license => "export_license"
  | .certificate_of_ownership => "certificate_of_ownership"
  | .cargo_manifest => "cargo_manifest"
  | .vessel_q88 => "vessel_q88"
  | .time_log => "time_log"
  | .masters_receipt => "masters_receipt"
  | .tank_cleanliness_certificate => "tank_cleanliness_certificate"
  | .charter_party => "charter_party"
  | .dip_test_report => "dip_test_report"

/-- Display name used in issue document lists:
`doc.type.replace(/_/g, " ").toUpperCase()`. -/
def docDisplayName (t : DocumentType) : String :=
  ⟨t.str.data.map (fun c => if c = '_' then ' ' else upperCh c)⟩

/-- A document-level issue, as produced by the extraction collaborator. -/
structure Issue where
  type : String
  severity : Severity
  description : String
  deriving DecidableEq, Repr

/-- One packing-list row (`netWeight` is the required field). -/
structure PackingItem where
  description : Option String := none
  cartons : Option ℚ := none
  netWeight : ℚ
  grossWeight : Option ℚ := none
  deriving DecidableEq, Repr

/-- One ullage-report tank row (`volume` is the required field). -/
structure UllageItem where
  tankName : Option String := none
  volume : ℚ
  temperature : Option ℚ := none
  deriving DecidableEq, Repr

/-- One invoice line item (`lineTotal` is the required field). -/
structure InvoiceLineItem where
  description : Option String := none
  quantity : Option ℚ := none
  unitPrice : Option ℚ := none
  lineTotal : ℚ
  deriving DecidableEq, Repr

/-- The wide, all-optional `extractedDataSchema` record.  JavaScript numbers
are modelled as rationals; the source field `freightNotation` is embedded
under the name `freightTerm`. -/
structure ExtractedData where
  amount : Option String := none
  currency : Option String := none
  beneficiary : Option String := none
  applicant : Option String := none
  portOfLoading : Option String := none
  portOfDischarge : Option String := none
  goodsDescription : Option String := none
  quantity : Option String := none
  weight : Option String := none
  expiryDate : Option String := none
  latestShipmentDate : Option String := none
  shipmentDate : Option String := none
  vesselName : Option String := none
  blNumber : Option String := none
  lcNumber : Option String := none
  invoiceNumber : Option String := none
  apiGravity : Option String := none
  sulfurContent : Option String := none
  vesselImo : Option String := none
  inspectionCompany : Option String := none
  loadingDate : Option String := none
  insuredValue : Option String := none
  certificateNumber : Option String := none
  requiredInspectionCompany : Option String := none
  consignee : Option String := none
  quantityTolerance : Option String := none
  shippedOnBoard : Option Bool := none
  issuingBank : Option String := none
  loiBeneficiary : Option String := none
  loiIndemnifier : Option String := none
  loiVesselName : Option String := none
  loiBlNumber : Option String := none
  loiCargoDescription : Option String := none
  loiIndemnityValue : Option String := none
  wotLoadingWeight : Option String := none
  wotDischargeWeight : Option String := none
  wotDifference : Option String := none
  wotVesselName : Option String := none
  wotCargoDescription : Option String := none
  exportLicenseNumber : Option String := none
  exportLicenseExporter : Option String := none
  exportLicenseGoods : Option String := none
  exportLicenseDestination : Option String := none
  exportLicenseValidUntil : Option String := none
  ownershipSeller : Option String := none
  ownershipBuyer : Option String := none
  ownershipVessel : Option String := none
  ownershipCargo : Option String := none
  tankCleanlinessVessel : Option String := none
  tankCleanlinessDate : Option String := none
  tankCleanlinessInspector : Option String := none
  freightTerm : Option String := none
  carrierName : Option String := none
  carrierSignature : Option Bool := none
  invoiceDate : Option String := none
  issueDate : Option String := none
  inspectionDate : Option String := none
  packingListItems : Option (List PackingItem) := none
  packingListTotalNet : Option ℚ := none
  packingListTotalGross : Option ℚ := none
  ullageItems : Option (List UllageItem) := none
  ullageTotalVolume : Option ℚ := none
  invoiceLineItems : Option (List InvoiceLineItem) := none
  invoicePrintedTotal : Option ℚ := none
  deriving DecidableEq, Repr

/-- One analyzed document, the `documentResultSchema` record. -/
structure DocumentResult where
  type : DocumentType
  verdict : Verdict
  issues : List Issue
  extractedData : ExtractedData
  analysis : String := ""
  rawText : Option String := none
  deriving DecidableEq, Repr

/-- A cross-reference discrepancy, the `crossRefIssueSchema` record. -/
structure CrossRefIssue where
  field : String
  documents : List String
  values : List String
  severity : Severity
  description : String
  deriving DecidableEq, Repr

/-- Outcome of one invocation of the semantic goods-description comparator
collaborator, as observed by `compareGoodsDescriptions`: the agent may be
missing from the registry, the generate call or the JSON parse may throw, or
a reply may be parsed with a `matches` boolean (field `matched` here, `matches` being reserved) (after JavaScript `Boolean`
coercion) and an optional `reason` string. -/
inductive ComparatorOutcome where
  | noAgent
  | failed
  | parsed (matched : Bool) (reason : Option String)

/-- Strictness kind passed to the comparator: the source's
`docType: "invoice" | "bl"` local. -/
inductive GoodsKind where
  | invoice | bl
  deriving DecidableEq, Repr

/-- Environment of the cross-reference step: the JavaScript `Date` runtime
(`jsDate s` models `new Date(s).getTime()` in milliseconds, `none` meaning an
invalid date; `new Date(s)` parsing of arbitrary strings is
implementation-defined, hence a parameter) and the semantic comparator
collaborator. -/
structure JsEnv where
  jsDate : String → Option ℚ
  today : ℚ
  todayISO : String
  comparator : String → String → GoodsKind → ComparatorOutcome

/-- Fallback result of `compareGoodsDescriptions` with JavaScript `||` applied
to an optional reason. -/
def jsOrStr (r : Option String) (dflt : String) : String :=
  match r with
  | none => dflt
  | some s => if s = "" then dflt else s

/-- Result record of `compareGoodsDescriptions`. -/
structure CompareResult where
  matched : Bool
  reason : Option String

/-- The source's `compareGoodsDescriptions`: delegate to the comparator agent;
a missing agent, a thrown transport error or an unparseable reply all yield
`matches: false` with a fallback reason (fail-closed). -/
def compareGoodsDescriptions (env : JsEnv) (lcDesc otherDesc : String)
    (docType : GoodsKind) : CompareResult :=
  match env.comparator lcDesc otherDesc docType with
  | .noAgent => ⟨false, some "Unable to verify goods description - Haiku unavailable"⟩
  | .failed => ⟨false, some "Unable to verify goods description - manual review recommended"⟩
  | .parsed m r => ⟨m, r⟩

/- ===== Number formatting helpers ===== -/

/-- Decimal digit character. -/
def digitChar (n : Nat) : Char := Char.ofNat (48 + n % 10)

/-- Digits of a natural number (fuel-driven so it reduces definitionally). -/
def natDigitsGo : Nat → Nat → List Char
  | 0, _ => []
  | fuel + 1, n => if n < 10 then [digitChar n] else natDigitsGo fuel (n / 10) ++ [digitChar (n % 10)]

/-- Decimal string of a natural number. -/
def natToStr (n : Nat) : String := ⟨natDigitsGo (n + 1) n⟩

/-- Decimal string of an integer. -/
def intToStr (i : Int) : String :=
  if i < 0 then "-" ++ natToStr i.natAbs else natToStr i.natAbs

/-- JavaScript `Number.prototype.toFixed(dp)` on an exact rational: round to
`dp` decimal places, ties away from the rounding direction exactly as the
spec picks the larger candidate on the absolute value, then print with a
fixed number of decimals.  (The engine's claims never depend on the
double-rounding artifacts of binary floats, so the exact-rational reading is
used.) -/
def qToFixed (dp : Nat) (q : ℚ) : String :=
  let core := fun (x : ℚ) =>
    let n : Int := (x.num * (10 : ℤ) ^ dp * 2 + x.den) / (2 * (x.den : ℤ))
    let s := natToStr n.natAbs
    if dp = 0 then s
    else
      let ds := s.data
      let padded := List.replicate (dp + 1 - ds.length) '0' ++ ds
      ⟨padded.take (padded.length - dp)⟩ ++ "." ++ ⟨padded.drop (padded.length - dp)⟩
  if qLt q 0 then "-" ++ core (qNeg q) else core q

/-- JavaScript default number-to-string conversion used by template literals,
on the exact rationals of this model: integers print without a decimal point,
finite decimal fractions print with the least number of decimals, and other
rationals (which the engine never produces) fall back to `num/den`. -/
def qToStr (q : ℚ) : String :=
  if q.den = 1 then intToStr q.num
  else
    match (List.range 31).find? (fun k => (qMul q (mkRat ((10 : ℤ) ^ k) 1)).den == 1) with
    | some k =>
      let n : Int := (qMul q (mkRat ((10 : ℤ) ^ k) 1)).num
      let s := natToStr n.natAbs
      let ds := s.data
      let padded := List.replicate (k + 1 - ds.length) '0' ++ ds
      (if qLt q 0 then "-" else "") ++
        ⟨padded.take (padded.length - k)⟩ ++ "." ++ ⟨padded.drop (padded.length - k)⟩
    | none => intToStr q.num ++ "/" ++ natToStr q.den

/-- JavaScript `split(/\s+/)` followed by dropping empty pieces (the one use
site filters by word length, so empty pieces never survive anyway). -/
def wsWords (cs : List Char) : List String :=
  (cs.foldr
    (fun c acc =>
      if isJsWs c then "" :: acc
      else
        match acc with
        | s :: ss => (⟨c :: s.data⟩ : String) :: ss
        | [] => [(⟨[c]⟩ : String)])
    []).filter (· ≠ "")

/-- JavaScript `substring(0, n)`. -/
def strTake (n : Nat) (s : String) : String := ⟨s.data.take n⟩

/-- JavaScript `toLowerCase().replace(/\s/g, "")`. -/
def lowerNoWs (s : String) : String := ⟨(jsLower s).data.filter (fun c => !isJsWs c)⟩

/-- Document type string with underscores replaced by spaces (no upper-casing):
`doc.type.replace(/_/g, " ")`. -/
def typeSpaceName (t : DocumentType) : String :=
  ⟨t.str.data.map (fun c => if c = '_' then ' ' else c)⟩

/-- JavaScript `join("; ")`. -/
def joinSemi : List String → String
  | [] => ""
  | [s] => s
  | s :: t :: rest => s ++ "; " ++ joinSemi (t :: rest)

/- ===== Cross-reference rule set ===== -/

/-- First document of the given type: `documentResults.find(d => d.type === t)`. -/
def findDoc (docs : List DocumentResult) (t : DocumentType) : Option DocumentResult :=
  docs.find? (fun d => d.type == t)

/-- Amount entries collected from the LC and the invoice; each push is guarded
by string truthiness of the field and number truthiness of the extraction. -/
def amountEntries (lc invoice : Option DocumentResult) : List (String × ℚ) :=
  (match lc with
   | some l =>
     match truthyStr l.extractedData.amount with
     | some s =>
       match truthyQ (extractAmount (some s)) with
       | some a => [("LC", a)]
       | none => []
     | none => []
   | none => []) ++
  (match invoice with
   | some inv =>
     match truthyStr inv.extractedData.amount with
     | some s =>
       match truthyQ (extractAmount (some s)) with
       | some a => [("Invoice", a)]
       | none => []
     | none => []
   | none => [])

/-- The invoice-exceeds-LC amount rule. -/
def amountCheck (lc invoice : Option DocumentResult) : List CrossRefIssue :=
  let amounts := amountEntries lc invoice
  if 2 ≤ amounts.length then
    let lcAmt := (amounts.find? (fun a => a.1 == "LC")).map (·.2)
    let invAmt := (amounts.find? (fun a => a.1 == "Invoice")).map (·.2)
    match truthyQ lcAmt, truthyQ invAmt with
    | some l, some i =>
      if qLt l i then
        [{ field := "amount", documents := ["LC", "Invoice"],
           values := amounts.map (fun a => a.1 ++ ": " ++ qToStr a.2),
           severity := .critical,
           description := "Invoice amount exceeds LC amount. LC: " ++ qToStr l ++
             ", Invoice: " ++ qToStr i }]
      else []
    | _, _ => []
  else []

/-- Document types whose port fields participate in the port cross-reference. -/
def portRelevantDocTypes : List DocumentType :=
  [.letter_of_credit, .bill_of_lading, .commercial_invoice, .certificate_of_origin,
   .insurance_certificate, .inspection_certificate, .loading_certificate, .vessel_nomination]

/-- Specified ports of loading with their display document names. -/
def portsOfLoading (docs : List DocumentResult) : List (String × String) :=
  docs.filterMap (fun d =>
    if portRelevantDocTypes.contains d.type &&
       isSpecified d.extractedData.portOfLoading then
      some (docDisplayName d.type, d.extractedData.portOfLoading.getD "")
    else none)

/-- Specified ports of discharge with their display document names. -/
def portsOfDischarge (docs : List DocumentResult) : List (String × String) :=
  docs.filterMap (fun d =>
    if portRelevantDocTypes.contains d.type &&
       isSpecified d.extractedData.portOfDischarge then
      some (docDisplayName d.type, d.extractedData.portOfDischarge.getD "")
    else none)

/-- Port consistency rule: with at least two collected ports, every port is
fuzzily compared against the first-seen one; any mismatch produces a single
major issue naming all collected ports. -/
def portConsistencyIssues (field descr : String) (ports : List (String × String)) :
    List CrossRefIssue :=
  match ports with
  | p0 :: _ :: _ =>
    let mismatches := ports.filter (fun p => !portsMatch p0.2 p.2)
    if 0 < mismatches.length then
      [{ field := field, documents := ports.map (·.1),
         values := ports.map (fun p => p.1 ++ ": " ++ p.2),
         severity := .major, description := descr }]
    else []
  | _ => []

/-- Document types whose `beneficiary` field means the LC beneficiary. -/
def beneficiaryRelevantDocTypes : List DocumentType :=
  [.letter_of_credit, .commercial_invoice, .bill_of_lading, .packing_list,
   .certificate_of_origin, .insurance_certificate, .beneficiary_certificate,
   .non_manipulation_certificate]

/-- Specified beneficiaries with their display document names. -/
def beneficiaryEntries (docs : List DocumentResult) : List (String × String) :=
  docs.filterMap (fun d =>
    if beneficiaryRelevantDocTypes.contains d.type &&
       isSpecified d.extractedData.beneficiary then
      some (docDisplayName d.type, d.extractedData.beneficiary.getD "")
    else none)

/-- Beneficiary consistency rule (critical on mismatch). -/
def beneficiaryCheck (docs : List DocumentResult) : List CrossRefIssue :=
  match beneficiaryEntries docs with
  | b0 :: b1 :: rest =>
    let beneficiaries := b0 :: b1 :: rest
    let mismatches := beneficiaries.filter (fun b => !namesMatch b0.2 b.2)
    if 0 < mismatches.length then
      [{ field := "beneficiary", documents := beneficiaries.map (·.1),
         values := beneficiaries.map (fun b => b.1 ++ ": " ++ b.2),
         severity := .critical,
         description := "Beneficiary name mismatch - banks will reject" }]
    else []
  | _ => []

/-- Document types whose `lcNumber` field is cross-referenced. -/
def lcNumberRelevantDocTypes : List DocumentType :=
  [.letter_of_credit, .commercial_invoice, .bill_of_lading, .packing_list,
   .certificate_of_origin, .insurance_certificate, .bill_of_exchange,
   .beneficiary_certificate, .non_manipulation_certificate]

/-- Specified LC numbers with their display document names. -/
def lcNumberEntries (docs : List DocumentResult) : List (String × String) :=
  docs.filterMap (fun d =>
    if lcNumberRelevantDocTypes.contains d.type &&
       isSpecified d.extractedData.lcNumber then
      some (docDisplayName d.type, d.extractedData.lcNumber.getD "")
    else none)

/-- LC-number consistency rule: literal mismatch after normalization is
critical. -/
def lcNumberCheck (docs : List DocumentResult) : List CrossRefIssue :=
  match lcNumberEntries docs with
  | l0 :: l1 :: rest =>
    let lcNumbers := l0 :: l1 :: rest
    let normalized := lcNumbers.map (fun l => normalize (some l.2))
    if 1 < normalized.dedup.length then
      [{ field := "lcNumber", documents := lcNumbers.map (·.1),
         values := lcNumbers.map (fun l => l.1 ++ ": " ++ l.2),
         severity := .critical,
         description := "LC number mismatch - documents reference different LCs" }]
    else []
  | _ => []

/-- The three LC date rules (shipment-after-expiry, expired LC,
shipment-after-latest-shipment), evaluated only in LC mode. -/
def lcDateCheckIssues (env : JsEnv) (lc bl : Option DocumentResult) : List CrossRefIssue :=
  (match bl, lc with
   | some b, some l =>
     match truthyStr b.extractedData.shipmentDate, truthyStr l.extractedData.expiryDate with
     | some sd, some ed =>
       match env.jsDate sd, env.jsDate ed with
       | some shipMs, some expMs =>
         if qLt expMs shipMs then
           [{ field := "dates", documents := ["LC", "B/L"],
              values := ["LC Expiry: " ++ ed, "Shipment: " ++ sd],
              severity := .critical,
              description := "Shipment date is after LC expiry - presentation will be rejected" }]
         else []
       | _, _ => []
     | _, _ => []
   | _, _ => []) ++
  (match lc with
   | some l =>
     match truthyStr l.extractedData.expiryDate with
     | some ed =>
       match env.jsDate ed with
       | some expMs =>
         if qLt expMs env.today then
           [{ field := "lcExpiry", documents := ["LC"],
              values := ["LC Expiry: " ++ ed, "Today: " ++ env.todayISO],
              severity := .critical,
              description := "LC expired on " ++ ed ++ " - cannot present documents" }]
         else []
       | none => []
     | none => []
   | none => []) ++
  (match bl, lc with
   | some b, some l =>
     match truthyStr b.extractedData.shipmentDate, truthyStr l.extractedData.latestShipmentDate with
     | some sd, some lsd =>
       match env.jsDate sd, env.jsDate lsd with
       | some shipMs, some latestMs =>
         if qLt latestMs shipMs then
           [{ field := "lateShipment", documents := ["LC", "B/L"],
              values := ["LC Latest Shipment: " ++ lsd, "B/L Shipped: " ++ sd],
              severity := .critical,
              description := "Shipment date " ++ sd ++ " is after LC latest shipment date " ++
                lsd ++ " - bank will reject" }]
         else []
       | _, _ => []
     | _, _ => []
   | _, _ => [])

/-- Specified, positive, parseable quantities with display names and raw
values, collected over every document. -/
def quantityEntries (docs : List DocumentResult) : List (String × String × ℚ) :=
  docs.filterMap (fun d =>
    if isSpecified d.extractedData.quantity then
      match truthyQ (extractAmount d.extractedData.quantity) with
      | some q => if qLt 0 q then some (docDisplayName d.type, d.extractedData.quantity.getD "", q) else none
      | none => none
    else none)

/-- The tolerance used by the quantity rule together with its reported source:
the LC value when the tolerance pattern matches (`none` represents the `NaN`
produced when the matched numeric token does not parse), else the 5% default. -/
def lcToleranceSpec (lc : Option DocumentResult) : Option ℚ × String :=
  let dflt : Option ℚ × String := (some (mkRat 5 100), "UCP 600 default 5%")
  match lc with
  | some l =>
    match truthyStr l.extractedData.quantityTolerance with
    | some tolStr =>
      match tolSearch tolStr.data with
      | some tok =>
        ((parseFloatTok tok).map (fun v => qDivJ v 100), "LC specified " ++ tolStr)
      | none => dflt
    | none => dflt
  | none => dflt

/-- The quantity tolerance rule: every collected quantity is compared against
the first-seen one; relative deviation strictly above the tolerance on any
document produces a single major issue.  A `NaN` tolerance (`none`) makes the
comparison `false` for every document, as in JavaScript. -/
def quantityCheck (lc : Option DocumentResult) (docs : List DocumentResult) :
    List CrossRefIssue :=
  match quantityEntries docs with
  | q0 :: q1 :: rest =>
    let quantities := q0 :: q1 :: rest
    let spec := lcToleranceSpec lc
    let baseQty := q0.2.2
    let mismatches := quantities.filter (fun q =>
      match spec.1 with
      | some t => qLt t (qDivJ (qAbs (qSub q.2.2 baseQty)) baseQty)
      | none => false)
    if 0 < mismatches.length then
      [{ field := "quantity", documents := quantities.map (·.1),
         values := quantities.map (fun q => q.1 ++ ": " ++ q.2.1),
         severity := .major,
         description := "Quantity mismatch across documents (exceeds " ++
           qToFixed 0 (qMul (spec.1.getD 0) 100) ++ "% tolerance - " ++ spec.2 ++ ")" }]
    else []
  | _ => []

/-- Document types participating in the goods-description rule. -/
def goodsDescRelevantDocTypes : List DocumentType :=
  [.letter_of_credit, .commercial_invoice, .bill_of_lading, .packing_list]

/-- One collected goods description. -/
structure GoodsEntry where
  doc : String
  docType : DocumentType
  value : String
  deriving DecidableEq, Repr

/-- Specified goods descriptions from the relevant document types. -/
def goodsDescriptions (docs : List DocumentResult) : List GoodsEntry :=
  docs.filterMap (fun d =>
    if goodsDescRelevantDocTypes.contains d.type &&
       isSpecified d.extractedData.goodsDescription then
      some { doc := docDisplayName d.type, docType := d.type,
             value := d.extractedData.goodsDescription.getD "" }
    else none)

/-- One comparison record of the goods-description rule, mirroring the object
built for each compared document (with the strictness kind passed to the
comparator recorded in `kind`). -/
structure GoodsComparison where
  doc : String
  docType : DocumentType
  kind : GoodsKind
  severity : Severity
  matched : Bool
  reason : String
  deriving DecidableEq, Repr

/-- The comparisons run against the LC description: the invoice and the
packing list are compared with the strict `invoice` rule, everything else
with the lenient `bl` rule; severity is critical for the strict kind and
major otherwise. -/
def goodsComparisons (env : JsEnv) (lcVal : String) (entries : List GoodsEntry) :
    List GoodsComparison :=
  entries.map (fun g =>
    let docType := if g.docType == .commercial_invoice || g.docType == .packing_list
      then GoodsKind.invoice else GoodsKind.bl
    let result := compareGoodsDescriptions env lcVal g.value docType
    { doc := g.doc, docType := g.docType, kind := docType,
      severity := if docType == GoodsKind.invoice then Severity.critical else Severity.major,
      matched := result.matched,
      reason := jsOrStr result.reason (g.doc ++ " doesn\x27t match LC goods description") })

/-- The goods-description rule: with at least two collected descriptions and
an LC among them, compare every other document against the LC; failed
comparisons produce a single issue whose severity is critical when any
failing comparison was strict. -/
def goodsDescriptionCheck (env : JsEnv) (docs : List DocumentResult) : List CrossRefIssue :=
  let gds := goodsDescriptions docs
  if 2 ≤ gds.length then
    match gds.find? (fun g => g.docType == .letter_of_credit) with
    | some lcGoods =>
      let docsToCompare := gds.filter (fun g => !(g.docType == .letter_of_credit))
      let comparisons := goodsComparisons env lcGoods.value docsToCompare
      let issues := comparisons.filter (fun c => !c.matched)
      if 0 < issues.length then
        let hasCritical := issues.any (fun i => i.severity == .critical)
        [{ field := "goodsDescription", documents := gds.map (·.doc),
           values := gds.map (fun g => g.doc ++ ": " ++ g.value),
           severity := if hasCritical then .critical else .major,
           description := joinSemi (issues.map (·.reason)) }]
      else []
    | none => []
  else []

/-- The inspection-company rule: when the LC names a required inspection
company, every inspection-type certificate with a specified company must
contain it (or be contained in it) case-insensitively; each offending
certificate produces a critical issue. -/
def inspectionCheckIssues (lc : Option DocumentResult) (docs : List DocumentResult) :
    List CrossRefIssue :=
  match lc with
  | some l =>
    match truthyStr l.extractedData.requiredInspectionCompany with
    | some req =>
      let requiredCompany := jsLower req
      let inspectionDocs := docs.filter (fun d =>
        (d.type == .inspection_certificate || d.type == .certificate_of_quality ||
         d.type == .certificate_of_quantity) &&
        isSpecified d.extractedData.inspectionCompany)
      inspectionDocs.filterMap (fun d =>
        let actualRaw := d.extractedData.inspectionCompany.getD ""
        let actualCompany := jsLower actualRaw
        if !strContains actualCompany requiredCompany &&
           !strContains requiredCompany actualCompany then
          some { field := "inspectionCompany",
                 documents := ["LC", docDisplayName d.type],
                 values := ["LC requires: " ++ req, typeSpaceName d.type ++ ": " ++ actualRaw],
                 severity := Severity.critical,
                 description := "LC requires inspection by " ++ req ++
                   " but certificate issued by " ++ actualRaw }
        else none)
    | none => []
  | none => []

/-- The consignee / order-party rule: the B/L consignee must contain
"to order"; a "to order of" consignee must reference the issuing bank by the
full name or by one of its distinctive words. -/
def consigneeCheckIssues (lc bl : Option DocumentResult) : List CrossRefIssue :=
  match bl, lc with
  | some b, some l =>
    match truthyStr b.extractedData.consignee, truthyStr l.extractedData.issuingBank with
    | some consigneeRaw, some bankRaw =>
      let consignee := jsLower consigneeRaw
      let issuingBank := jsLower bankRaw
      let isToOrder := strContains consignee "to order"
      let commonWords : List String :=
        ["bank", "of", "the", "n.a.", "na", "ltd", "limited", "inc", "corp", "plc"]
      let bankDistinctiveWords := (wsWords issuingBank.data).filter
        (fun w => 2 < w.length && !commonWords.contains w)
      let mentionsIssuingBank := strContains consignee issuingBank ||
        bankDistinctiveWords.any (fun w => strContains consignee w)
      if !isToOrder then
        [{ field := "consignee", documents := ["B/L", "LC"],
           values := ["B/L Consignee: " ++ consigneeRaw, "LC Issuing Bank: " ++ bankRaw],
           severity := .critical,
           description := "B/L not made \"to order\" - should be \"TO ORDER\" or \"TO ORDER OF " ++
             bankRaw ++ "\" for LC presentation" }]
      else if strContains consignee "to order of" && !mentionsIssuingBank then
        [{ field := "consignee", documents := ["B/L", "LC"],
           values := ["B/L Consignee: " ++ consigneeRaw, "LC Issuing Bank: " ++ bankRaw],
           severity := .major,
           description := "B/L made to order of wrong party - should be \"TO ORDER OF " ++
             bankRaw ++ "\"" }]
      else []
    | _, _ => []
  | _, _ => []

/-- The LC-vs-B/L vessel-name rule (major on mismatch after prefix
normalization). -/
def vesselCheckIssues (lc bl : Option DocumentResult) : List CrossRefIssue :=
  match lc, bl with
  | some l, some b =>
    match truthyStr l.extractedData.vesselName, truthyStr b.extractedData.vesselName with
    | some lv, some bv =>
      let lcVesselNorm := normalizeVesselWith vesselAltsLC lv
      let blVesselNorm := normalizeVesselWith vesselAltsLC bv
      if lcVesselNorm ≠ blVesselNorm && !strContains blVesselNorm lcVesselNorm &&
         !strContains lcVesselNorm blVesselNorm then
        [{ field := "vesselName", documents := ["LC", "B/L"],
           values := ["LC Vessel: " ++ lv, "B/L Vessel: " ++ bv],
           severity := .major,
           description := "Vessel name mismatch - LC specifies \"" ++ lv ++
             "\" but B/L shows \"" ++ bv ++ "\"" }]
      else []
    | _, _ => []
  | _, _ => []

/-- The insurance-coverage rule: the insured value must reach 110% of the
invoice amount (or the LC amount as fallback). -/
def insuranceCheckIssues (lc invoice insuranceCert : Option DocumentResult) :
    List CrossRefIssue :=
  match insuranceCert with
  | some cert =>
    match truthyStr cert.extractedData.insuredValue with
    | some ivStr =>
      let insuredAmt := extractAmount (some ivStr)
      let invoiceAmt := match invoice with
        | some inv =>
          match truthyStr inv.extractedData.amount with
          | some a => extractAmount (some a)
          | none => none
        | none => none
      let lcAmt := match lc with
        | some l =>
          match truthyStr l.extractedData.amount with
          | some a => extractAmount (some a)
          | none => none
        | none => none
      let referenceAmt := match truthyQ invoiceAmt with
        | some v => some v
        | none => lcAmt
      match truthyQ insuredAmt, truthyQ referenceAmt with
      | some ins, some ref =>
        let minRequired := qMul ref (mkRat 110 100)
        if qLt ins minRequired then
          let coverage := qToFixed 0 (qMul (qDivJ ins ref) 100)
          let refDisplay :=
            match truthyStr (invoice.bind (·.extractedData.amount)) with
            | some s => s
            | none =>
              match lc.bind (·.extractedData.amount) with
              | some s => s
              | none => "undefined"
          [{ field := "insuranceValue",
             documents := ["Insurance Certificate", if invoice.isSome then "Invoice" else "LC"],
             values := ["Insured: " ++ ivStr, "Reference: " ++ refDisplay],
             severity := .major,
             description := "Insurance coverage insufficient - " ++ coverage ++
               "% of value (minimum 110% required for LC presentation)" }]
        else []
      | _, _ => []
    | none => []
  | none => []

/-- The two LOI rules: the LOI vessel must match the B/L vessel and the LOI
B/L number must match the actual B/L number. -/
def loiCheckIssues (docs : List DocumentResult) (bl : Option DocumentResult) :
    List CrossRefIssue :=
  match findDoc docs .letter_of_indemnity with
  | some loi =>
    (match truthyStr loi.extractedData.loiVesselName, bl with
     | some lv, some b =>
       match truthyStr b.extractedData.vesselName with
       | some bv =>
         let loiVessel := normalizeVesselRaw vesselAltsLOI lv
         let blVessel := normalizeVesselRaw vesselAltsLOI bv
         if loiVessel ≠ blVessel && !strContains loiVessel blVessel &&
            !strContains blVessel loiVessel then
           [{ field := "loiVesselName", documents := ["LOI", "B/L"],
              values := ["LOI: " ++ lv, "B/L: " ++ bv],
              severity := .critical,
              description := "LOI vessel name does not match B/L — bank will reject" }]
         else []
       | none => []
     | _, _ => []) ++
    (match truthyStr loi.extractedData.loiBlNumber, bl with
     | some ln, some b =>
       match truthyStr b.extractedData.blNumber with
       | some bn =>
         let loiBl := lowerNoWs ln
         let actualBl := lowerNoWs bn
         if loiBl ≠ actualBl && !strContains loiBl actualBl &&
            !strContains actualBl loiBl then
           [{ field := "loiBlNumber", documents := ["LOI", "B/L"],
              values := ["LOI references: " ++ ln, "Actual B/L: " ++ bn],
              severity := .critical,
              description := "LOI references wrong B/L number" }]
         else []
       | none => []
     | _, _ => [])
  | none => []

/-- The weight-out-turn rules: loading weight vs B/L weight (0.5% tolerance),
transit shortage above 0.5% and overage above 0.3%. -/
def wotCheckIssues (docs : List DocumentResult) (bl : Option DocumentResult) :
    List CrossRefIssue :=
  match findDoc docs .weight_out_turn with
  | some wot =>
    (match truthyStr wot.extractedData.wotLoadingWeight, bl with
     | some lwStr, some b =>
       match truthyStr b.extractedData.weight with
       | some bwStr =>
         match truthyQ (extractAmount (some lwStr)), truthyQ (extractAmount (some bwStr)) with
         | some wotLoading, some blWeight =>
           let diff := qDivJ (qAbs (qSub wotLoading blWeight)) blWeight
           if qLt (mkRat 5 1000) diff then
             [{ field := "wotLoadingWeight", documents := ["WOT", "B/L"],
                values := ["WOT Loading: " ++ lwStr, "B/L Weight: " ++ bwStr],
                severity := .major,
                description := "WOT loading weight differs from B/L by " ++
                  qToFixed 2 (qMul diff 100) ++ "% (max 0.5% tolerance)" }]
           else []
         | _, _ => []
       | none => []
     | _, _ => []) ++
    (match truthyStr wot.extractedData.wotLoadingWeight,
           truthyStr wot.extractedData.wotDischargeWeight with
     | some lwStr, some dwStr =>
       match truthyQ (extractAmount (some lwStr)), truthyQ (extractAmount (some dwStr)) with
       | some loading, some discharge =>
         let loss := qDivJ (qSub loading discharge) loading
         (if qLt (mkRat 5 1000) loss then
           [{ field := "wotShortage", documents := ["WOT"],
              values := ["Loading: " ++ lwStr, "Discharge: " ++ dwStr],
              severity := .major,
              description := "Transit loss of " ++ qToFixed 2 (qMul loss 100) ++
                "% exceeds typical 0.5% tolerance — may trigger cargo claims" }]
         else []) ++
         (if qLt loss (qNeg (mkRat 3 1000)) then
           [{ field := "wotOverage", documents := ["WOT"],
              values := ["Loading: " ++ lwStr, "Discharge: " ++ dwStr],
              severity := .minor,
              description := "Discharge weight exceeds loading by " ++
                qToFixed 2 (qMul (qAbs loss) 100) ++ "% — unusual, verify measurements" }]
         else [])
       | _, _ => []
     | _, _ => [])
  | none => []

/-- The export-license rules: the exporter must overlap the LC beneficiary
(first ten characters either way) and the license must not be expired. -/
def exportLicenseCheckIssues (env : JsEnv) (docs : List DocumentResult)
    (lc : Option DocumentResult) : List CrossRefIssue :=
  match findDoc docs .export_license with
  | some exportLic =>
    (match truthyStr exportLic.extractedData.exportLicenseExporter, lc with
     | some eStr, some l =>
       match truthyStr l.extractedData.beneficiary with
       | some bStr =>
         let licExporter := jsLower eStr
         let lcBenef := jsLower bStr
         if !strContains licExporter (strTake 10 lcBenef) &&
            !strContains lcBenef (strTake 10 licExporter) then
           [{ field := "exportLicenseExporter", documents := ["Export License", "LC"],
              values := ["License: " ++ eStr, "LC Beneficiary: " ++ bStr],
              severity := .critical,
              description := "Export license exporter does not match LC beneficiary — sanctions risk" }]
         else []
       | none => []
     | _, _ => []) ++
    (match truthyStr exportLic.extractedData.exportLicenseValidUntil with
     | some vStr =>
       match env.jsDate vStr with
       | some validMs =>
         if qLt validMs env.today then
           [{ field := "exportLicenseExpiry", documents := ["Export License"],
              values := ["Valid until: " ++ vStr],
              severity := .critical,
              description := "Export license has expired" }]
         else []
       | none => []
     | none => [])
  | none => []

/-- The certificate-of-ownership rules: the buyer must overlap the LC
applicant and the vessel must match the B/L vessel. -/
def ownershipCheckIssues (docs : List DocumentResult) (lc bl : Option DocumentResult) :
    List CrossRefIssue :=
  match findDoc docs .certificate_of_ownership with
  | some ownership =>
    (match truthyStr ownership.extractedData.ownershipBuyer, lc with
     | some buyerStr, some l =>
       match truthyStr l.extractedData.applicant with
       | some appStr =>
         let certBuyer := jsLower buyerStr
         let lcApplicant := jsLower appStr
         if !strContains certBuyer (strTake 10 lcApplicant) &&
            !strContains lcApplicant (strTake 10 certBuyer) then
           [{ field := "ownershipBuyer", documents := ["Certificate of Ownership", "LC"],
              values := ["Cert Buyer: " ++ buyerStr, "LC Applicant: " ++ appStr],
              severity := .major,
              description := "Ownership certificate buyer does not match LC applicant" }]
         else []
       | none => []
     | _, _ => []) ++
    (match truthyStr ownership.extractedData.ownershipVessel, bl with
     | some ovStr, some b =>
       match truthyStr b.extractedData.vesselName with
       | some bvStr =>
         let certVessel := normalizeVesselRaw vesselAltsShort ovStr
         let blVessel := normalizeVesselRaw vesselAltsShort bvStr
         if !strContains certVessel blVessel && !strContains blVessel certVessel then
           [{ field := "ownershipVessel", documents := ["Certificate of Ownership", "B/L"],
              values := ["Cert: " ++ ovStr, "B/L: " ++ bvStr],
              severity := .major,
              description := "Ownership certificate vessel does not match B/L" }]
         else []
       | none => []
     | _, _ => [])
  | none => []

/-- The tank-cleanliness rules: the certificate vessel must match the B/L and
the inspection must not be dated after the B/L. -/
def tankCertCheckIssues (env : JsEnv) (docs : List DocumentResult)
    (bl : Option DocumentResult) : List CrossRefIssue :=
  match findDoc docs .tank_cleanliness_certificate with
  | some tankCert =>
    (match truthyStr tankCert.extractedData.tankCleanlinessVessel, bl with
     | some tvStr, some b =>
       match truthyStr b.extractedData.vesselName with
       | some bvStr =>
         let certVessel := normalizeVesselRaw vesselAltsShort tvStr
         let blVessel := normalizeVesselRaw vesselAltsShort bvStr
         if !strContains certVessel blVessel && !strContains blVessel certVessel then
           [{ field := "tankCleanlinessVessel", documents := ["Tank Cleanliness Cert", "B/L"],
              values := ["Cert: " ++ tvStr, "B/L: " ++ bvStr],
              severity := .major,
              description := "Tank cleanliness certificate vessel does not match B/L" }]
         else []
       | none => []
     | _, _ => []) ++
    (match truthyStr tankCert.extractedData.tankCleanlinessDate, bl with
     | some tdStr, some b =>
       match truthyStr b.extractedData.shipmentDate with
       | some bdStr =>
         match env.jsDate tdStr, env.jsDate bdStr with
         | some inspMs, some blMs =>
           if qLt blMs inspMs then
             [{ field := "tankCleanlinessDate", documents := ["Tank Cleanliness Cert", "B/L"],
                values := ["Inspection: " ++ tdStr, "B/L: " ++ bdStr],
                severity := .critical,
                description := "Tank cleanliness inspection dated AFTER B/L — logically impossible" }]
           else []
         | _, _ => []
       | none => []
     | _, _ => [])
  | none => []

/-- The fixed list of further vessel-bearing document types compared against
the B/L. -/
def vesselDocPairs : List (DocumentType × String) :=
  [(.cargo_manifest, "Cargo Manifest"), (.vessel_q88, "Vessel Q88"),
   (.time_log, "Time Log"), (.masters_receipt, "Master\x27s Receipt"),
   (.charter_party, "Charter Party"), (.dip_test_report, "Dip Test Report")]

/-- The loop comparing each further vessel-bearing document against the B/L. -/
def vesselDocsCheckIssues (docs : List DocumentResult) (bl : Option DocumentResult) :
    List CrossRefIssue :=
  vesselDocPairs.flatMap (fun p =>
    match findDoc docs p.1 with
    | some doc =>
      match truthyStr doc.extractedData.vesselName, bl with
      | some dvStr, some b =>
        match truthyStr b.extractedData.vesselName with
        | some bvStr =>
          let docVessel := normalizeVesselRaw vesselAltsShort dvStr
          let blVessel := normalizeVesselRaw vesselAltsShort bvStr
          if !strContains docVessel blVessel && !strContains blVessel docVessel then
            [{ field := p.1.str ++ "VesselName", documents := [p.2, "B/L"],
               values := [p.2 ++ ": " ++ dvStr, "B/L: " ++ bvStr],
               severity := .major,
               description := p.2 ++ " vessel does not match B/L" }]
          else []
        | none => []
      | _, _ => []
    | none => [])

/-- The freight-notation rule: a prepaid/collect conflict between B/L and LC
is critical. -/
def freightCheckIssues (lc bl : Option DocumentResult) : List CrossRefIssue :=
  match bl, lc with
  | some b, some l =>
    match truthyStr b.extractedData.freightTerm, truthyStr l.extractedData.freightTerm with
    | some bf, some lf =>
      let blFreight := jsLower bf
      let lcFreight := jsLower lf
      let blIsPrepaid := strContains blFreight "prepaid"
      let blIsCollect := strContains blFreight "collect"
      let lcIsPrepaid := strContains lcFreight "prepaid"
      let lcIsCollect := strContains lcFreight "collect"
      if (blIsPrepaid && lcIsCollect) || (blIsCollect && lcIsPrepaid) then
        [{ field := "freightNotation", documents := ["B/L", "LC"],
           values := ["B/L: " ++ bf, "LC: " ++ lf],
           severity := .critical,
           description := "Freight notation mismatch — B/L shows different freight terms than LC requires" }]
      else []
    | _, _ => []
  | _, _ => []

/-- The carrier rules: an explicitly absent carrier signature is critical; a
missing carrier name is major. -/
def carrierCheckIssues (bl : Option DocumentResult) : List CrossRefIssue :=
  match bl with
  | some b =>
    (if b.extractedData.carrierSignature == some false then
      [{ field := "carrierSignature", documents := ["B/L"],
         values := ["No carrier/master signature detected"],
         severity := .critical,
         description := "B/L must be signed by carrier, master, or named agent per UCP 600 Article 20" }]
    else []) ++
    (match truthyStr b.extractedData.carrierName with
     | some _ => []
     | none =>
       [{ field := "carrierName", documents := ["B/L"],
          values := ["Carrier name not found"],
          severity := .major,
          description := "B/L should indicate the name of the carrier per UCP 600" }])
  | none => []

/-- One document-dating comparison against the B/L date: a certificate dated
more than one day after the B/L is major. -/
def datingSub (env : JsEnv) (docs : List DocumentResult) (t : DocumentType)
    (getter : ExtractedData → Option String) (docLabel valuePrefix descrLabel : String)
    (blMs : ℚ) (blDateStr : String) : List CrossRefIssue :=
  match findDoc docs t with
  | some doc =>
    match truthyStr (getter doc.extractedData) with
    | some dStr =>
      match env.jsDate dStr with
      | some dMs =>
        if qLt blMs dMs then
          let daysDiff := qDivJ (qSub dMs blMs) 86400000
          if qLt 1 daysDiff then
            [{ field := "documentDating", documents := [docLabel, "B/L"],
               values := [valuePrefix ++ dStr, "B/L: " ++ blDateStr],
               severity := .major,
               description := descrLabel ++ " dated " ++ intToStr (qFloor daysDiff) ++
                 " days AFTER B/L — logically inconsistent" }]
          else []
        else []
      | none => []
    | none => []
  | none => []

/-- The document-dating consistency rules against the B/L shipment date. -/
def datingCheckIssues (env : JsEnv) (docs : List DocumentResult)
    (bl : Option DocumentResult) : List CrossRefIssue :=
  match bl with
  | some b =>
    match truthyStr b.extractedData.shipmentDate with
    | some blDateStr =>
      match env.jsDate blDateStr with
      | some blMs =>
        datingSub env docs .inspection_certificate (·.inspectionDate)
          "Inspection Certificate" "Inspection: " "Inspection certificate" blMs blDateStr ++
        datingSub env docs .certificate_of_origin (·.issueDate)
          "Certificate of Origin" "CO: " "Certificate of Origin" blMs blDateStr ++
        datingSub env docs .certificate_of_quality (·.issueDate)
          "Certificate of Quality" "Quality Cert: " "Quality certificate" blMs blDateStr
      | none => []
    | none => []
  | none => []

/-- The non-LC customs-readiness rules: invoice and B/L are required
(critical when absent), certificate of origin and packing list are expected
(major when absent). -/
def customsCheckIssues (docs : List DocumentResult) : List CrossRefIssue :=
  let hasInvoice := docs.any (fun d => d.type == .commercial_invoice)
  let hasBL := docs.any (fun d => d.type == .bill_of_lading)
  let hasCO := docs.any (fun d => d.type == .certificate_of_origin)
  let hasPackingList := docs.any (fun d => d.type == .packing_list)
  (if !hasInvoice then
    [{ field := "customsReadiness", documents := ["Package"],
       values := ["Missing Commercial Invoice"], severity := .critical,
       description := "Commercial Invoice required for customs clearance" }]
  else []) ++
  (if !hasBL then
    [{ field := "customsReadiness", documents := ["Package"],
       values := ["Missing Bill of Lading"], severity := .critical,
       description := "Bill of Lading required for cargo release" }]
  else []) ++
  (if !hasCO then
    [{ field := "customsReadiness", documents := ["Package"],
       values := ["Missing Certificate of Origin"], severity := .major,
       description := "Certificate of Origin typically required for customs clearance" }]
  else []) ++
  (if !hasPackingList then
    [{ field := "customsReadiness", documents := ["Package"],
       values := ["Missing Packing List"], severity := .major,
       description := "Packing List helps customs verify cargo contents" }]
  else [])

/-- The shipped-on-board rule (runs in both payment modes): an explicit
`false` flag on the B/L is critical. -/
def shippedOnBoardIssues (bl : Option DocumentResult) : List CrossRefIssue :=
  match bl with
  | some b =>
    if b.extractedData.shippedOnBoard == some false then
      [{ field := "shippedOnBoard", documents := ["B/L"],
         values := ["B/L: RECEIVED FOR SHIPMENT (not shipped on board)"],
         severity := .critical,
         description := "B/L is \"Received for Shipment\" without shipped-on-board notation - bank will reject. Need dated on-board notation with vessel name." }]
    else []
  | none => []

/-- The packing-list math rule: sum the rows, compare to the printed total,
critical above 1 kg of absolute difference.  The printed total is guarded by
JavaScript truthiness, so a total of 0 disables the rule. -/
def packingMathIssues (docs : List DocumentResult) : List CrossRefIssue :=
  match findDoc docs .packing_list with
  | some pl =>
    match pl.extractedData.packingListItems, truthyQ pl.extractedData.packingListTotalNet with
    | some items, some printedTotal =>
      if 0 < items.length then
        let calculatedSum := items.foldl (fun sum item => qAdd sum item.netWeight) 0
        let diff := qAbs (qSub calculatedSum printedTotal)
        if qLt 1 diff then
          [{ field := "packingListMath", documents := ["Packing List"],
             values := ["Rows sum to: " ++ qToFixed 2 calculatedSum ++ " kg",
                        "Printed total: " ++ qToFixed 2 printedTotal ++ " kg",
                        "Difference: " ++ qToFixed 2 diff ++ " kg"],
             severity := .critical,
             description := "MATH ERROR: Packing list rows sum to " ++ qToFixed 2 calculatedSum ++
               " kg but printed total is " ++ qToFixed 2 printedTotal ++ " kg — " ++
               qToFixed 2 diff ++ " kg discrepancy" }]
        else []
      else []
    | _, _ => []
  | none => []

/-- The ullage math rule: critical above 0.1% of relative difference (the
denominator is the printed total, with the same truthiness guard). -/
def ullageMathIssues (docs : List DocumentResult) : List CrossRefIssue :=
  match findDoc docs .ullage_report with
  | some ullage =>
    match ullage.extractedData.ullageItems, truthyQ ullage.extractedData.ullageTotalVolume with
    | some tanks, some printedTotal =>
      if 0 < tanks.length then
        let calculatedSum := tanks.foldl (fun sum tank => qAdd sum tank.volume) 0
        let diff := qAbs (qSub calculatedSum printedTotal)
        let percentDiff := qMul (qDivJ diff printedTotal) 100
        if qLt (mkRat 1 10) percentDiff then
          [{ field := "ullageMath", documents := ["Ullage Report"],
             values := ["Tanks sum to: " ++ qToFixed 2 calculatedSum,
                        "Printed total: " ++ qToFixed 2 printedTotal,
                        "Difference: " ++ qToFixed 2 diff ++ " (" ++ qToFixed 2 percentDiff ++ "%)"],
             severity := .critical,
             description := "MATH ERROR: Ullage tank volumes sum to " ++ qToFixed 2 calculatedSum ++
               " but printed total is " ++ qToFixed 2 printedTotal ++ " — " ++
               qToFixed 2 percentDiff ++ "% discrepancy" }]
        else []
      else []
    | _, _ => []
  | none => []

/-- The invoice math rule: critical above both one dollar and 0.01% of
relative difference. -/
def invoiceMathIssues (invoice : Option DocumentResult) : List CrossRefIssue :=
  match invoice with
  | some inv =>
    match inv.extractedData.invoiceLineItems, truthyQ inv.extractedData.invoicePrintedTotal with
    | some lineItems, some printedTotal =>
      if 0 < lineItems.length then
        let calculatedSum := lineItems.foldl (fun sum item => qAdd sum item.lineTotal) 0
        let diff := qAbs (qSub calculatedSum printedTotal)
        let percentDiff := qMul (qDivJ diff printedTotal) 100
        if qLt 1 diff && qLt (mkRat 1 100) percentDiff then
          [{ field := "invoiceMath", documents := ["Invoice"],
             values := ["Lines sum to: " ++ qToFixed 2 calculatedSum,
                        "Printed total: " ++ qToFixed 2 printedTotal,
                        "Difference: " ++ qToFixed 2 diff],
             severity := .critical,
             description := "MATH ERROR: Invoice line items sum to " ++ qToFixed 2 calculatedSum ++
               " but printed total is " ++ qToFixed 2 printedTotal ++ " — possible fraud or typo" }]
        else []
      else []
    | _, _ => []
  | none => []

/-- All rule blocks which the source evaluates only in LC mode after the
goods-description rule, in source order. -/
def lcMiscCheckIssues (env : JsEnv) (docs : List DocumentResult)
    (lc bl invoice : Option DocumentResult) : List CrossRefIssue :=
  inspectionCheckIssues lc docs ++
  consigneeCheckIssues lc bl ++
  vesselCheckIssues lc bl ++
  insuranceCheckIssues lc invoice (findDoc docs .insurance_certificate) ++
  loiCheckIssues docs bl ++
  wotCheckIssues docs bl ++
  exportLicenseCheckIssues env docs lc ++
  ownershipCheckIssues docs lc bl ++
  tankCertCheckIssues env docs bl ++
  vesselDocsCheckIssues docs bl ++
  freightCheckIssues lc bl ++
  carrierCheckIssues bl ++
  datingCheckIssues env docs bl

/-- Output of the cross-reference step. -/
structure CrossRefOutput where
  crossRefIssues : List CrossRefIssue
  documentResults : List DocumentResult
  paymentMode : PaymentMode

/-- The whole cross-reference step: derive the payment mode from the presence
of a letter-of-credit document, run every rule over the immutable document
list and collect the issues in source push order. -/
def crossReferenceStep (env : JsEnv) (documentResults : List DocumentResult) :
    CrossRefOutput :=
  let lc := findDoc documentResults .letter_of_credit
  let bl := findDoc documentResults .bill_of_lading
  let invoice := findDoc documentResults .commercial_invoice
  let hasLC := lc.isSome
  let paymentMode := if hasLC then PaymentMode.lc else PaymentMode.no_lc
  let crossRefIssues :=
    amountCheck lc invoice ++
    portConsistencyIssues "portOfLoading" "Port of loading mismatch across documents"
      (portsOfLoading documentResults) ++
    portConsistencyIssues "portOfDischarge" "Port of discharge mismatch across documents"
      (portsOfDischarge documentResults) ++
    beneficiaryCheck documentResults ++
    lcNumberCheck documentResults ++
    (if paymentMode = PaymentMode.lc then lcDateCheckIssues env lc bl else []) ++
    quantityCheck lc documentResults ++
    goodsDescriptionCheck env documentResults ++
    (if paymentMode = PaymentMode.lc then lcMiscCheckIssues env documentResults lc bl invoice
     else []) ++
    (if paymentMode = PaymentMode.no_lc then customsCheckIssues documentResults else []) ++
    shippedOnBoardIssues bl ++
    packingMathIssues documentResults ++
    ullageMathIssues documentResults ++
    invoiceMathIssues invoice
  { crossRefIssues := crossRefIssues, documentResults := documentResults,
    paymentMode := paymentMode }

/- ===== Final verdict step ===== -/

/-- The terminal `PackageVerdict` artifact. -/
structure PackageVerdict where
  overallVerdict : Verdict
  documentResults : List DocumentResult
  crossReferenceIssues : List CrossRefIssue
  recommendation : String
  paymentMode : PaymentMode

/-- The source's `finalVerdictStep`: any critical document issue, critical
cross-reference issue or NO_GO document verdict gives NO_GO; otherwise any
major issue, WAIT verdict or non-empty cross-reference list gives WAIT;
otherwise GO.  The recommendation string concatenates the triggering issue
descriptions. -/
def finalVerdictStep (documentResults : List DocumentResult)
    (crossRefIssues : List CrossRefIssue) (paymentMode : PaymentMode) : PackageVerdict :=
  let hasCriticalDocIssue := documentResults.any (fun d =>
    d.issues.any (fun i => i.severity == .critical))
  let hasCriticalCrossRef := crossRefIssues.any (fun i => i.severity == .critical)
  let hasNoGoVerdict := documentResults.any (fun d => d.verdict == .NO_GO)
  let hasMajorDocIssue := documentResults.any (fun d =>
    d.issues.any (fun i => i.severity == .major))
  let hasMajorCrossRef := crossRefIssues.any (fun i => i.severity == .major)
  let hasWaitVerdict := documentResults.any (fun d => d.verdict == .WAIT)
  if hasCriticalDocIssue || hasCriticalCrossRef || hasNoGoVerdict then
    let criticalIssues :=
      (documentResults.flatMap (fun d =>
        (d.issues.filter (fun i => i.severity == .critical)).map (·.description))) ++
      (crossRefIssues.filter (fun i => i.severity == .critical)).map (·.description)
    { overallVerdict := .NO_GO, documentResults := documentResults,
      crossReferenceIssues := crossRefIssues,
      recommendation := "STOP - Critical issues found: " ++ joinSemi criticalIssues ++
        ". Do not present to bank until resolved.",
      paymentMode := paymentMode }
  else if hasMajorDocIssue || hasMajorCrossRef || hasWaitVerdict ||
          0 < crossRefIssues.length then
    let majorIssues :=
      (documentResults.flatMap (fun d =>
        (d.issues.filter (fun i => i.severity == .major)).map (·.description))) ++
      (crossRefIssues.filter (fun i => i.severity == .major)).map (·.description)
    { overallVerdict := .WAIT, documentResults := documentResults,
      crossReferenceIssues := crossRefIssues,
      recommendation := if 0 < majorIssues.length then
          "REVIEW NEEDED - Issues found: " ++ joinSemi majorIssues ++
          ". Request amendments before presentation."
        else
          "REVIEW NEEDED - Minor cross-reference issues detected. Verify documents match before presentation.",
      paymentMode := paymentMode }
  else
    { overallVerdict := .GO, documentResults := documentResults,
      crossReferenceIssues := crossRefIssues,
      recommendation := "Package looks complete and consistent. Proceed with presentation to bank.",
      paymentMode := paymentMode }

/- ===== Verdict characterization lemmas ===== -/

/-- Critical-trigger condition of the final verdict as a proposition. -/
def CriticalTrigger (docs : List DocumentResult) (issues : List CrossRefIssue) : Prop :=
  (∃ d ∈ docs, ∃ i ∈ d.issues, i.severity = Severity.critical) ∨
  (∃ i ∈ issues, i.severity = Severity.critical) ∨
  (∃ d ∈ docs, d.verdict = Verdict.NO_GO)

/-- Wait-trigger condition of the final verdict as a proposition. -/
def WaitTrigger (docs : List DocumentResult) (issues : List CrossRefIssue) : Prop :=
  (∃ d ∈ docs, ∃ i ∈ d.issues, i.severity = Severity.major) ∨
  (∃ i ∈ issues, i.severity = Severity.major) ∨
  (∃ d ∈ docs, d.verdict = Verdict.WAIT) ∨ issues ≠ []

theorem critical_cond_iff (docs : List DocumentResult) (issues : List CrossRefIssue) :
    ((docs.any (fun d => d.issues.any (fun i => i.severity == Severity.critical)) ||
      issues.any (fun i => i.severity == Severity.critical)) ||
      docs.any (fun d => d.verdict == Verdict.NO_GO)) = true ↔
      CriticalTrigger docs issues := by
  simp [CriticalTrigger, List.any_eq_true, or_assoc]

theorem wait_cond_iff (docs : List DocumentResult) (issues : List CrossRefIssue) :
    (((docs.any (fun d => d.issues.any (fun i => i.severity == Severity.major)) ||
      issues.any (fun i => i.severity == Severity.major)) ||
      docs.any (fun d => d.verdict == Verdict.WAIT)) ||
      decide (0 < issues.length)) = true ↔
      WaitTrigger docs issues := by
  simp [WaitTrigger, List.any_eq_true, or_assoc, List.length_pos]

theorem finalVerdict_NO_GO_iff (docs : List DocumentResult) (issues : List CrossRefIssue)
    (pm : PaymentMode) :
    (finalVerdictStep docs issues pm).overallVerdict = Verdict.NO_GO ↔
      CriticalTrigger docs issues := by
  simp only [finalVerdictStep]
  split
  · next h =>
    constructor
    · intro _
      exact (critical_cond_iff docs issues).mp h
    · intro _
      rfl
  · next h =>
    split
    · next =>
      constructor
      · intro hw
        exact Verdict.noConfusion hw
      · intro hr
        exact absurd ((critical_cond_iff docs issues).mpr hr) h
    · next =>
      constructor
      · intro hg
        exact Verdict.noConfusion hg
      · intro hr
        exact absurd ((critical_cond_iff docs issues).mpr hr) h

theorem finalVerdict_WAIT_iff (docs : List DocumentResult) (issues : List CrossRefIssue)
    (pm : PaymentMode) :
    (finalVerdictStep docs issues pm).overallVerdict = Verdict.WAIT ↔
      (¬ CriticalTrigger docs issues ∧ WaitTrigger docs issues) := by
  simp only [finalVerdictStep]
  split
  · next h =>
    constructor
    · intro hw
      exact Verdict.noConfusion hw
    · intro hr
      exact absurd ((critical_cond_iff docs issues).mp h) hr.1
  · next h =>
    split
    · next h2 =>
      constructor
      · intro _
        exact ⟨fun hc => h ((critical_cond_iff docs issues).mpr hc),
               (wait_cond_iff docs issues).mp h2⟩
      · intro _
        rfl
    · next h2 =>
      constructor
      · intro hg
        exact Verdict.noConfusion hg
      · intro hr
        exact absurd ((wait_cond_iff docs issues).mpr hr.2) h2

theorem finalVerdict_GO_iff (docs : List DocumentResult) (issues : List CrossRefIssue)
    (pm : PaymentMode) :
    (finalVerdictStep docs issues pm).overallVerdict = Verdict.GO ↔
      (¬ CriticalTrigger docs issues ∧ ¬ WaitTrigger docs issues) := by
  simp only [finalVerdictStep]
  split
  · next h =>
    constructor
    · intro hw
      exact Verdict.noConfusion hw
    · intro hr
      exact absurd ((critical_cond_iff docs issues).mp h) hr.1
  · next h =>
    split
    · next h2 =>
      constructor
      · intro hw
        exact Verdict.noConfusion hw
      · intro hr
        exact absurd ((wait_cond_iff docs issues).mp h2) hr.2
    · next h2 =>
      constructor
      · intro _
        exact ⟨fun hc => h ((critical_cond_iff docs issues).mpr hc),
               fun hw => h2 ((wait_cond_iff docs issues).mpr hw)⟩
      · intro _
        rfl

/- ===== Claim theorems ===== -/

/-- C1: the final-verdict rollup is deterministic: any critical document-level
issue, critical cross-reference issue or NO_GO document verdict forces the
overall verdict NO_GO; otherwise any major issue, WAIT document verdict or
non-empty cross-reference issue list gives WAIT; otherwise GO.  Consequently
appending a critical cross-reference issue to any package forces NO_GO, and a
package with no issues and only GO document verdicts yields GO. -/
theorem claim_C1_verdict_rollup (docs : List DocumentResult) (issues : List CrossRefIssue)
    (pm : PaymentMode) :
    (CriticalTrigger docs issues →
      (finalVerdictStep docs issues pm).overallVerdict = Verdict.NO_GO) ∧
    (¬ CriticalTrigger docs issues → WaitTrigger docs issues →
      (finalVerdictStep docs issues pm).overallVerdict = Verdict.WAIT) ∧
    (¬ CriticalTrigger docs issues → ¬ WaitTrigger docs issues →
      (finalVerdictStep docs issues pm).overallVerdict = Verdict.GO) ∧
    (∀ i : CrossRefIssue, i.severity = Severity.critical →
      (finalVerdictStep docs (issues ++ [i]) pm).overallVerdict = Verdict.NO_GO) ∧
    ((∀ d ∈ docs, d.issues = [] ∧ d.verdict = Verdict.GO) → issues = [] →
      (finalVerdictStep docs issues pm).overallVerdict = Verdict.GO) := by
  refine ⟨?_, ?_, ?_, ?_, ?_⟩
  · intro h
    exact (finalVerdict_NO_GO_iff docs issues pm).mpr h
  · intro h1 h2
    exact (finalVerdict_WAIT_iff docs issues pm).mpr ⟨h1, h2⟩
  · intro h1 h2
    exact (finalVerdict_GO_iff docs issues pm).mpr ⟨h1, h2⟩
  · intro i hi
    exact (finalVerdict_NO_GO_iff docs (issues ++ [i]) pm).mpr
      (Or.inr (Or.inl ⟨i, List.mem_append_right _ (List.mem_singleton_self i), hi⟩))
  · intro hclean hempty
    refine (finalVerdict_GO_iff docs issues pm).mpr ⟨?_, ?_⟩
    · rintro (⟨d, hd, i, hi, _⟩ | ⟨i, hi, _⟩ | ⟨d, hd, hv⟩)
      · rw [(hclean d hd).1] at hi
        exact absurd hi (List.not_mem_nil i)
      · rw [hempty] at hi
        exact absurd hi (List.not_mem_nil i)
      · rw [(hclean d hd).2] at hv
        exact Verdict.noConfusion hv
    · rintro (⟨d, hd, i, hi, _⟩ | ⟨i, hi, _⟩ | ⟨d, hd, hv⟩ | hne)
      · rw [(hclean d hd).1] at hi
        exact absurd hi (List.not_mem_nil i)
      · rw [hempty] at hi
        exact absurd hi (List.not_mem_nil i)
      · rw [(hclean d hd).2] at hv
        exact Verdict.noConfusion hv
      · exact hne hempty

/-- C1 witness: a single critical cross-reference issue on an otherwise empty
package yields NO_GO, by the rollup theorem at a concrete input. -/
theorem claim_C1_witness :
    (finalVerdictStep []
      [{ field := "amount", documents := ["LC", "Invoice"], values := [],
         severity := Severity.critical,
         description := "Invoice amount exceeds LC amount" }]
      PaymentMode.lc).overallVerdict = Verdict.NO_GO :=
  (claim_C1_verdict_rollup []
    [{ field := "amount", documents := ["LC", "Invoice"], values := [],
       severity := Severity.critical,
       description := "Invoice amount exceeds LC amount" }]
    PaymentMode.lc).1
    (Or.inr (Or.inl ⟨_, List.mem_singleton_self _, rfl⟩))

/-- C5 counterexample: a package whose only finding is one minor
document-level issue (document verdict GO, no cross-reference issues)
receives overall verdict GO, not WAIT as the claim states. -/
theorem claim_C5_counterexample :
    (finalVerdictStep
      [{ type := DocumentType.commercial_invoice, verdict := Verdict.GO,
         issues := [{ type := "note", severity := Severity.minor,
                      description := "minor internal finding" }],
         extractedData := {} }] [] PaymentMode.no_lc).overallVerdict ≠ Verdict.WAIT ∧
    (finalVerdictStep
      [{ type := DocumentType.commercial_invoice, verdict := Verdict.GO,
         issues := [{ type := "note", severity := Severity.minor,
                      description := "minor internal finding" }],
         extractedData := {} }] [] PaymentMode.no_lc).overallVerdict = Verdict.GO := by
  decide

/-- C5 (amended): the overall verdict is the rollup of document-level issue
severities, document verdicts and cross-reference issues with critical
mapping to NO_GO and major, WAIT verdicts or any non-empty cross-reference
issue list mapping to WAIT - but minor document-level issues are ignored: a
package whose only finding is a minor document-level issue receives GO, while
a package whose only finding is a minor cross-reference issue receives
WAIT. -/
theorem claim_C5_amended_minor_behaviour (docs : List DocumentResult)
    (issues : List CrossRefIssue) (pm : PaymentMode) :
    ((finalVerdictStep docs issues pm).overallVerdict = Verdict.NO_GO ↔
      CriticalTrigger docs issues) ∧
    ((finalVerdictStep docs issues pm).overallVerdict = Verdict.WAIT ↔
      (¬ CriticalTrigger docs issues ∧ WaitTrigger docs issues)) ∧
    ((finalVerdictStep docs issues pm).overallVerdict = Verdict.GO ↔
      (¬ CriticalTrigger docs issues ∧ ¬ WaitTrigger docs issues)) ∧
    ((∀ d ∈ docs, d.verdict = Verdict.GO) →
      (∀ d ∈ docs, ∀ i ∈ d.issues, i.severity = Severity.minor) →
      issues = [] →
      (finalVerdictStep docs issues pm).overallVerdict = Verdict.GO) ∧
    ((∀ d ∈ docs, d.verdict = Verdict.GO ∧ d.issues = []) →
      (∀ i ∈ issues, i.severity = Severity.minor) →
      issues ≠ [] →
      (finalVerdictStep docs issues pm).overallVerdict = Verdict.WAIT) := by
  refine ⟨finalVerdict_NO_GO_iff docs issues pm, finalVerdict_WAIT_iff docs issues pm,
    finalVerdict_GO_iff docs issues pm, ?_, ?_⟩
  · intro hgo hminor hempty
    refine (finalVerdict_GO_iff docs issues pm).mpr ⟨?_, ?_⟩
    · rintro (⟨d, hd, i, hi, hc⟩ | ⟨i, hi, _⟩ | ⟨d, hd, hv⟩)
      · rw [hminor d hd i hi] at hc
        exact Severity.noConfusion hc
      · rw [hempty] at hi
        exact absurd hi (List.not_mem_nil i)
      · rw [hgo d hd] at hv
        exact Verdict.noConfusion hv
    · rintro (⟨d, hd, i, hi, hc⟩ | ⟨i, hi, _⟩ | ⟨d, hd, hv⟩ | hne)
      · rw [hminor d hd i hi] at hc
        exact Severity.noConfusion hc
      · rw [hempty] at hi
        exact absurd hi (List.not_mem_nil i)
      · rw [hgo d hd] at hv
        exact Verdict.noConfusion hv
      · exact hne hempty
  · intro hclean hminor hne
    refine (finalVerdict_WAIT_iff docs issues pm).mpr ⟨?_, Or.inr (Or.inr (Or.inr hne))⟩
    rintro (⟨d, hd, i, hi, _⟩ | ⟨i, hi, hc⟩ | ⟨d, hd, hv⟩)
    · rw [(hclean d hd).2] at hi
      exact absurd hi (List.not_mem_nil i)
    · rw [hminor i hi] at hc
      exact Severity.noConfusion hc
    · rw [(hclean d hd).1] at hv
      exact Verdict.noConfusion hv

/-- C5 amended witness: concrete instances of the minor-issue behaviour. -/
theorem claim_C5_amended_witness :
    (finalVerdictStep
      [{ type := DocumentType.commercial_invoice, verdict := Verdict.GO,
         issues := [{ type := "note", severity := Severity.minor, description := "m" }],
         extractedData := {} }] [] PaymentMode.no_lc).overallVerdict = Verdict.GO ∧
    (finalVerdictStep
      [{ type := DocumentType.commercial_invoice, verdict := Verdict.GO, issues := [],
         extractedData := {} }]
      [{ field := "wotOverage", documents := ["WOT"], values := [],
         severity := Severity.minor, description := "m" }]
      PaymentMode.lc).overallVerdict = Verdict.WAIT := by
  constructor
  · exact (claim_C5_amended_minor_behaviour _ [] PaymentMode.no_lc).2.2.2.1
      (by decide) (by decide) rfl
  · exact (claim_C5_amended_minor_behaviour _ _ PaymentMode.lc).2.2.2.2
      (by decide) (by decide) (by decide)


/- ===== Date parser lemmas ===== -/

-- C9 support lemmas
theorem digit_not_ws {c : Char} (h : isDigitCh c = true) : isJsWs c = false := by
  cases hws : isJsWs c
  · rfl
  · exfalso
    simp only [isJsWs, Bool.or_eq_true, decide_eq_true_eq] at hws
    rcases hws with ((((h1 | h1) | h1) | h1) | h1) | h1 <;> subst h1 <;> exact absurd h (by decide)

theorem dropWhile_no {p : Char → Bool} {cs : List Char}
    (h : ∀ c ∈ cs, p c = false) : cs.dropWhile p = cs := by
  cases cs with
  | nil => rfl
  | cons c t =>
    rw [List.dropWhile_cons, h c (List.mem_cons_self c t)]
    simp

theorem jsTrimList_no_ws {cs : List Char} (h : ∀ c ∈ cs, isJsWs c = false) :
    jsTrimList cs = cs := by
  unfold jsTrimList
  rw [dropWhile_no h, dropWhile_no (fun c hc => h c (List.mem_reverse.mp hc)),
    List.reverse_reverse]

theorem isoShape_not_ws {cs : List Char} (h : isIsoShape cs = true) :
    (∀ c ∈ cs, isJsWs c = false) ∧ cs ≠ [] := by
  unfold isIsoShape at h
  split at h
  next y1 y2 y3 y4 h1 m1 m2 h2 d1 d2 =>
    simp only [Bool.and_eq_true, decide_eq_true_eq] at h
    obtain ⟨⟨⟨⟨⟨⟨⟨⟨⟨hy1, hy2⟩, hy3⟩, hy4⟩, hh1⟩, hm1⟩, hm2⟩, hh2⟩, hd1⟩, hd2⟩ := h
    subst hh1
    subst hh2
    refine ⟨?_, by simp⟩
    intro c hc
    fin_cases hc
    · exact digit_not_ws hy1
    · exact digit_not_ws hy2
    · exact digit_not_ws hy3
    · exact digit_not_ws hy4
    · decide
    · exact digit_not_ws hm1
    · exact digit_not_ws hm2
    · decide
    · exact digit_not_ws hd1
    · exact digit_not_ws hd2
  next => exact absurd h (by simp)

theorem padStart2_length {cs : List Char} (h : cs.length ≤ 2) :
    (padStart2 cs).length = 2 := by
  simp only [padStart2, List.length_append, List.length_replicate]
  omega

theorem padStart2_digits {cs : List Char} (h : ∀ c ∈ cs, isDigitCh c = true) :
    ∀ c ∈ padStart2 cs, isDigitCh c = true := by
  intro c hc
  rcases List.mem_append.mp hc with h1 | h1
  · rw [List.eq_of_mem_replicate h1]
    decide
  · exact h c h1

theorem iso_build {y m2 d2 : List Char} (hy : y.length = 4)
    (hyd : ∀ c ∈ y, isDigitCh c = true) (hm : m2.length = 2)
    (hmd : ∀ c ∈ m2, isDigitCh c = true) (hd : d2.length = 2)
    (hdd : ∀ c ∈ d2, isDigitCh c = true) :
    isIsoShape (y ++ '-' :: m2 ++ '-' :: d2) = true := by
  rcases y with _ | ⟨a, _ | ⟨b, _ | ⟨c, _ | ⟨d, _ | e⟩⟩⟩⟩ <;> simp_all
  rcases m2 with _ | ⟨e, _ | ⟨f, _ | g⟩⟩ <;> simp_all
  rcases d2 with _ | ⟨g, _ | ⟨h, _ | i⟩⟩ <;> simp_all
  simp [isIsoShape, hyd, hmd, hdd]

-- matcher spec lemmas
theorem dmyMatch_spec {cs d m y : List Char} (h : dmyMatch cs = some (d, m, y)) :
    (1 ≤ d.length ∧ d.length ≤ 2 ∧ ∀ c ∈ d, isDigitCh c = true) ∧
    (1 ≤ m.length ∧ m.length ≤ 2 ∧ ∀ c ∈ m, isDigitCh c = true) ∧
    (y.length = 4 ∧ ∀ c ∈ y, isDigitCh c = true) := by
  simp only [dmyMatch] at h
  split at h
  · exact absurd h (by simp)
  · rename_i hlen1
    split at h
    · rename_i s1 r1 heq1
      split at h
      · split at h
        · exact absurd h (by simp)
        · rename_i hsep1 hlen2
          split at h
          · rename_i s2 r2 heq2
            split at h
            · split at h
              · rename_i hsep2 hy
                simp only [Option.some.injEq, Prod.mk.injEq] at h
                obtain ⟨hd, hm, hyy⟩ := h
                subst hd
                subst hm
                subst hyy
                simp only [Bool.or_eq_true, decide_eq_true_eq, not_or, not_lt] at hlen1 hlen2
                simp only [Bool.and_eq_true, decide_eq_true_eq] at hy
                refine ⟨⟨by omega, hlen1.2, fun c hc => List.mem_takeWhile_imp hc⟩,
                        ⟨by omega, hlen2.2, fun c hc => List.mem_takeWhile_imp hc⟩,
                        hy.1, fun c hc => List.mem_takeWhile_imp hc⟩
              · exact absurd h (by simp)
            · exact absurd h (by simp)
          · exact absurd h (by simp)
      · exact absurd h (by simp)
    · exact absurd h (by simp)

theorem dayNameYearAt_spec {cs d a y : List Char} (h : dayNameYearAt cs = some (d, a, y)) :
    (1 ≤ d.length ∧ d.length ≤ 2 ∧ ∀ c ∈ d, isDigitCh c = true) ∧
    (y.length = 4 ∧ ∀ c ∈ y, isDigitCh c = true) := by
  simp only [dayNameYearAt] at h
  split at h
  · exact absurd h (by simp)
  · rename_i hlen1
    split at h
    · exact absurd h (by simp)
    · split at h
      · exact absurd h (by simp)
      · split at h
        · exact absurd h (by simp)
        · split at h
          · exact absurd h (by simp)
          · rename_i hy
            simp only [Option.some.injEq, Prod.mk.injEq] at h
            obtain ⟨hd, _, hyy⟩ := h
            subst hd
            subst hyy
            simp only [Bool.or_eq_true, decide_eq_true_eq, not_or, not_lt] at hlen1
            simp only [not_lt] at hy
            refine ⟨⟨by omega, hlen1.2, fun c hc => List.mem_takeWhile_imp hc⟩, ?_, ?_⟩
            · rw [List.length_take]
              omega
            · intro c hc
              exact List.mem_takeWhile_imp (List.mem_of_mem_take hc)

theorem dayNameYearSearch_spec {cs d a y : List Char}
    (h : dayNameYearSearch cs = some (d, a, y)) :
    (1 ≤ d.length ∧ d.length ≤ 2 ∧ ∀ c ∈ d, isDigitCh c = true) ∧
    (y.length = 4 ∧ ∀ c ∈ y, isDigitCh c = true) := by
  induction cs with
  | nil => exact absurd h (by simp [dayNameYearSearch])
  | cons c t ih =>
    rw [dayNameYearSearch] at h
    split at h
    · rename_i heq
      cases h
      exact dayNameYearAt_spec heq
    · exact ih h

theorem nameDayYearAt_spec {cs a d y : List Char} (h : nameDayYearAt cs = some (a, d, y)) :
    (1 ≤ d.length ∧ d.length ≤ 2 ∧ ∀ c ∈ d, isDigitCh c = true) ∧
    (y.length = 4 ∧ ∀ c ∈ y, isDigitCh c = true) := by
  simp only [nameDayYearAt] at h
  split at h
  · exact absurd h (by simp)
  · split at h
    · exact absurd h (by simp)
    · split at h
      · exact absurd h (by simp)
      · rename_i hlen1
        split at h
        · exact absurd h (by simp)
        · split at h
          · exact absurd h (by simp)
          · rename_i hy
            simp only [Option.some.injEq, Prod.mk.injEq] at h
            obtain ⟨_, hd, hyy⟩ := h
            subst hd
            subst hyy
            simp only [Bool.or_eq_true, decide_eq_true_eq, not_or, not_lt] at hlen1
            simp only [not_lt] at hy
            refine ⟨⟨by omega, hlen1.2, fun c hc => List.mem_takeWhile_imp hc⟩, ?_, ?_⟩
            · rw [List.length_take]
              omega
            · intro c hc
              exact List.mem_takeWhile_imp (List.mem_of_mem_take hc)

theorem nameDayYearSearch_spec {cs a d y : List Char}
    (h : nameDayYearSearch cs = some (a, d, y)) :
    (1 ≤ d.length ∧ d.length ≤ 2 ∧ ∀ c ∈ d, isDigitCh c = true) ∧
    (y.length = 4 ∧ ∀ c ∈ y, isDigitCh c = true) := by
  induction cs with
  | nil => exact absurd h (by simp [nameDayYearSearch])
  | cons c t ih =>
    rw [nameDayYearSearch] at h
    split at h
    · rename_i heq
      cases h
      exact nameDayYearAt_spec heq
    · exact ih h

theorem monthMap_shape {k v : String} (h : monthMap k = some v) :
    v.data.length = 2 ∧ ∀ c ∈ v.data, isDigitCh c = true := by
  unfold monthMap at h
  split at h <;> first
    | exact Option.noConfusion h
    | (injection h with h; subst h; decide)

theorem jsTrim_iso {s : String} (hiso : isIsoShape s.data = true) : jsTrim s = s := by
  unfold jsTrim
  rw [jsTrimList_no_ws (isoShape_not_ws hiso).1]

theorem iso_ne_empty {s : String} (hiso : isIsoShape s.data = true) : s ≠ "" := by
  intro he
  subst he
  exact absurd hiso (by decide)

theorem parseToISODate_iso {s : String} (hiso : isIsoShape s.data = true) :
    parseToISODate s = some s := by
  have htrim : jsTrim s = s := jsTrim_iso hiso
  simp only [parseToISODate, if_neg (iso_ne_empty hiso), htrim, if_pos hiso]

theorem mkIsoFromDMY_shape {y m d : List Char}
    (hy : y.length = 4) (hyd : ∀ c ∈ y, isDigitCh c = true)
    (hm : 1 ≤ m.length) (hm2 : m.length ≤ 2) (hmd : ∀ c ∈ m, isDigitCh c = true)
    (hd : 1 ≤ d.length) (hd2 : d.length ≤ 2) (hdd : ∀ c ∈ d, isDigitCh c = true) :
    isIsoShape (mkIsoFromDMY y m d).data = true := by
  exact iso_build hy hyd (padStart2_length hm2) (padStart2_digits hmd)
    (padStart2_length hd2) (padStart2_digits hdd)

theorem mkIsoFromMonthName_shape {y d : List Char} {mm : String}
    (hy : y.length = 4) (hyd : ∀ c ∈ y, isDigitCh c = true)
    (hmm : mm.data.length = 2) (hmmd : ∀ c ∈ mm.data, isDigitCh c = true)
    (hd : 1 ≤ d.length) (hd2 : d.length ≤ 2) (hdd : ∀ c ∈ d, isDigitCh c = true) :
    isIsoShape (mkIsoFromMonthName y mm d).data = true := by
  exact iso_build hy hyd hmm hmmd (padStart2_length hd2) (padStart2_digits hdd)

theorem parseToISODate_shape {s r : String} (h : parseToISODate s = some r) :
    isIsoShape r.data = true := by
  simp only [parseToISODate] at h
  split at h
  · exact absurd h (by simp)
  · split at h
    · rename_i hiso
      cases h
      exact hiso
    · split at h
      · rename_i d m y heq
        cases h
        obtain ⟨⟨hd1, hd2, hdd⟩, ⟨hm1, hm2, hmd⟩, hy, hyd⟩ := dmyMatch_spec heq
        exact mkIsoFromDMY_shape hy hyd hm1 hm2 hmd hd1 hd2 hdd
      · split at h
        · rename_i r2 hb2
          cases h
          -- hb2 : (match dayNameYearSearch ... with ...) = some r2
          split at hb2
          · rename_i d mon y heq
            obtain ⟨⟨hd1, hd2, hdd⟩, hy, hyd⟩ := dayNameYearSearch_spec heq
            cases hmm : monthMap (jsLower ⟨mon⟩) with
            | none => rw [hmm] at hb2; exact absurd hb2 (by simp)
            | some mm =>
              rw [hmm] at hb2
              simp only [Option.map_some', Option.some.injEq] at hb2
              subst hb2
              obtain ⟨hmm1, hmm2⟩ := monthMap_shape hmm
              exact mkIsoFromMonthName_shape hy hyd hmm1 hmm2 hd1 hd2 hdd
          · exact absurd hb2 (by simp)
        · split at h
          · rename_i mon d y heq
            cases hmm : monthMap (jsLower ⟨mon⟩) with
            | none => rw [hmm] at h; exact absurd h (by simp)
            | some mm =>
              rw [hmm] at h
              simp only [Option.map_some', Option.some.injEq] at h
              subst h
              obtain ⟨⟨hd1, hd2, hdd⟩, hy, hyd⟩ := nameDayYearSearch_spec heq
              obtain ⟨hmm1, hmm2⟩ := monthMap_shape hmm
              exact mkIsoFromMonthName_shape hy hyd hmm1 hmm2 hd1 hd2 hdd
          · exact absurd h (by simp)

theorem parseToISODate_idem {s r : String} (h : parseToISODate s = some r) :
    parseToISODate r = some r :=
  parseToISODate_iso (parseToISODate_shape h)


theorem parseToISODate_dmy {s : String} {d m y : List Char} (hne : s ≠ "")
    (hiso : isIsoShape (jsTrim s).data = false)
    (hdmy : dmyMatch (jsTrim s).data = some (d, m, y)) :
    parseToISODate s = some (mkIsoFromDMY y m d) := by
  simp only [parseToISODate, if_neg hne, hiso, Bool.false_eq_true, if_false, hdmy]

theorem parseToISODate_dayName {s : String} {d mon y : List Char} {mm : String} (hne : s ≠ "")
    (hiso : isIsoShape (jsTrim s).data = false)
    (hdmy : dmyMatch (jsTrim s).data = none)
    (hsearch : dayNameYearSearch (jsTrim s).data = some (d, mon, y))
    (hmm : monthMap (jsLower ⟨mon⟩) = some mm) :
    parseToISODate s = some (mkIsoFromMonthName y mm d) := by
  simp only [parseToISODate, if_neg hne, hiso, Bool.false_eq_true, if_false, hdmy, hsearch,
    hmm, Option.map_some']

theorem parseToISODate_noFormat {s : String} (hne : s ≠ "")
    (hiso : isIsoShape (jsTrim s).data = false)
    (hdmy : dmyMatch (jsTrim s).data = none)
    (hb2 : ∀ d mon y, dayNameYearSearch (jsTrim s).data = some (d, mon, y) →
      monthMap (jsLower ⟨mon⟩) = none)
    (hb3 : ∀ mon d y, nameDayYearSearch (jsTrim s).data = some (mon, d, y) →
      monthMap (jsLower ⟨mon⟩) = none) :
    parseToISODate s = none := by
  simp only [parseToISODate, if_neg hne, hiso, Bool.false_eq_true, if_false, hdmy]
  cases hs2 : dayNameYearSearch (jsTrim s).data with
  | some t =>
    obtain ⟨d, mon, y⟩ := t
    simp only [hb2 d mon y hs2, Option.map_none']
    cases hs3 : nameDayYearSearch (jsTrim s).data with
    | some u =>
      obtain ⟨mon3, d3, y3⟩ := u
      simp only [hb3 mon3 d3 y3 hs3, Option.map_none']
    | none => rfl
  | none =>
    simp only []
    cases hs3 : nameDayYearSearch (jsTrim s).data with
    | some u =>
      obtain ⟨mon3, d3, y3⟩ := u
      simp only [hs3, hb3 mon3 d3 y3 hs3, Option.map_none']
    | none => rfl


/-- C9: the date parser returns input already in ISO `YYYY-MM-DD` form
unchanged and is idempotent (parsing its own output returns the same string);
the formats are tried in fixed priority order returning the first success,
with slash/dash numeric dates always interpreted day-first (for example
`03/04/2026` parses to `2026-04-03`); input matching no supported format
yields `none`. -/
theorem claim_C9_date_normalizer :
    (∀ s : String, isIsoShape s.data = true → parseToISODate s = some s) ∧
    (∀ s r : String, parseToISODate s = some r → parseToISODate r = some r) ∧
    (∀ (s : String) (d m y : List Char), s ≠ "" →
      isIsoShape (jsTrim s).data = false →
      dmyMatch (jsTrim s).data = some (d, m, y) →
      parseToISODate s = some (mkIsoFromDMY y m d)) ∧
    parseToISODate "03/04/2026" = some "2026-04-03" ∧
    (∀ (s : String) (d mon y : List Char) (mm : String), s ≠ "" →
      isIsoShape (jsTrim s).data = false →
      dmyMatch (jsTrim s).data = none →
      dayNameYearSearch (jsTrim s).data = some (d, mon, y) →
      monthMap (jsLower ⟨mon⟩) = some mm →
      parseToISODate s = some (mkIsoFromMonthName y mm d)) ∧
    (∀ s : String, s ≠ "" →
      isIsoShape (jsTrim s).data = false →
      dmyMatch (jsTrim s).data = none →
      (∀ d mon y, dayNameYearSearch (jsTrim s).data = some (d, mon, y) →
        monthMap (jsLower ⟨mon⟩) = none) →
      (∀ mon d y, nameDayYearSearch (jsTrim s).data = some (mon, d, y) →
        monthMap (jsLower ⟨mon⟩) = none) →
      parseToISODate s = none) := by
  refine ⟨fun s h => parseToISODate_iso h,
          fun s r h => parseToISODate_idem h,
          fun s d m y h1 h2 h3 => parseToISODate_dmy h1 h2 h3,
          by decide,
          fun s d mon y mm h1 h2 h3 h4 h5 => parseToISODate_dayName h1 h2 h3 h4 h5,
          fun s h1 h2 h3 h4 h5 => parseToISODate_noFormat h1 h2 h3 h4 h5⟩

/-- C9 witness: the theorem applied at concrete inputs: an ISO string is
returned unchanged, the parse of `03/04/2026` re-parses to itself, and an
input matching no format yields `none`. -/
theorem claim_C9_witness :
    parseToISODate "2026-02-15" = some "2026-02-15" ∧
    parseToISODate "2026-04-03" = some "2026-04-03" ∧
    parseToISODate "hello" = none := by
  refine ⟨claim_C9_date_normalizer.1 "2026-02-15" (by decide),
          claim_C9_date_normalizer.2.1 "03/04/2026" "2026-04-03" (by decide),
          claim_C9_date_normalizer.2.2.2.2.2 "hello" (by decide) (by decide) (by decide) ?_ ?_⟩
  · intro d mon y h
    rw [show dayNameYearSearch (jsTrim "hello").data = none from by decide] at h
    exact Option.noConfusion h
  · intro mon d y h
    rw [show nameDayYearSearch (jsTrim "hello").data = none from by decide] at h
    exact Option.noConfusion h

/- ===== Entity-matcher lemmas ===== -/

theorem portsMatch_refl (u : String) : portsMatch u u = true := by
  by_cases h : extractCorePort u = "" <;> simp [portsMatch, h]

theorem portsMatch_empty_right {v : String} (hv : extractCorePort v = "") (u : String) :
    portsMatch u v = true := by
  simp [portsMatch, hv]

theorem portIssues_append_empty (field descr : String) (ports : List (String × String))
    (n : String) {v : String} (hv : extractCorePort v = "") :
    (portConsistencyIssues field descr (ports ++ [(n, v)]) = [] ↔
     portConsistencyIssues field descr ports = []) := by
  cases ports with
  | nil => simp [portConsistencyIssues]
  | cons p0 rest =>
    cases rest with
    | nil =>
      simp [portConsistencyIssues, List.filter, portsMatch_refl,
        portsMatch_empty_right hv]
    | cons q t =>
      have key : List.filter (fun p => !portsMatch p0.2 p.2) (p0 :: q :: (t ++ [(n, v)])) =
          List.filter (fun p => !portsMatch p0.2 p.2) (p0 :: q :: t) := by
        rw [show p0 :: q :: (t ++ [(n, v)]) = (p0 :: q :: t) ++ [(n, v)] from rfl,
          List.filter_append]
        simp [portsMatch_empty_right hv]
      simp only [portConsistencyIssues, List.cons_append]
      rw [key]
      split <;> simp


/-- C10: a port value whose canonical form is empty (for example a bare
stripped country name such as `UAE`, or a bare facility suffix such as
`Terminal`) matches every other port in both argument orders, and appending a
document carrying such a value to the collected port list never changes
whether the port-consistency rule emits an issue; the company-name matcher
has the same empty-canonical-form behaviour (for example a bare legal suffix
such as `LLC`). -/
theorem claim_C10_empty_canonical_match :
    (∀ v v2 : String, extractCorePort v = "" →
      portsMatch v v2 = true ∧ portsMatch v2 v = true) ∧
    extractCorePort "UAE" = "" ∧
    extractCorePort "Terminal" = "" ∧
    (∀ (field descr : String) (ports : List (String × String)) (n : String) (v : String),
      extractCorePort v = "" →
      (portConsistencyIssues field descr (ports ++ [(n, v)]) = [] ↔
       portConsistencyIssues field descr ports = [])) ∧
    (∀ v v2 : String, extractCoreName v = "" →
      namesMatch v v2 = true ∧ namesMatch v2 v = true) ∧
    extractCoreName "LLC" = "" := by
  refine ⟨?_, by decide, by decide, ?_, ?_, by decide⟩
  · intro v v2 hv
    constructor <;> simp [portsMatch, hv]
  · intro field descr ports n v hv
    exact portIssues_append_empty field descr ports n hv
  · intro v v2 hv
    constructor <;> simp [namesMatch, hv]

/-- C10 witness: the theorem applied at concrete inputs: `UAE` matches any
other port and appending it to a two-port list preserves the absence of an
issue. -/
theorem claim_C10_witness :
    portsMatch "UAE" "Jebel Ali, UAE" = true ∧
    namesMatch "LLC" "Acme Trading" = true ∧
    (portConsistencyIssues "portOfLoading" "Port of loading mismatch across documents"
      ([("LC", "Houston"), ("B/L", "Houston, USA")] ++ [("INVOICE", "UAE")]) = [] ↔
     portConsistencyIssues "portOfLoading" "Port of loading mismatch across documents"
      [("LC", "Houston"), ("B/L", "Houston, USA")] = []) := by
  refine ⟨(claim_C10_empty_canonical_match.1 "UAE" "Jebel Ali, UAE" (by decide)).1,
          (claim_C10_empty_canonical_match.2.2.2.2.1 "LLC" "Acme Trading" (by decide)).1,
          claim_C10_empty_canonical_match.2.2.2.1 "portOfLoading"
            "Port of loading mismatch across documents"
            [("LC", "Houston"), ("B/L", "Houston, USA")] "INVOICE" "UAE" (by decide)⟩

/- ===== Goods-description claim theorems ===== -/

/-- Comparator environment replying by strictness kind only: the strict
invoice rule reports a mismatch and the lenient B/L rule a match. -/
def kindSensitiveEnv : JsEnv :=
  { jsDate := fun _ => none, today := 0, todayISO := "1970-01-01",
    comparator := fun _ _ k =>
      match k with
      | .invoice => .parsed false (some "strict-rule mismatch")
      | .bl => .parsed true none }

/-- Comparator environment in which every call fails (transport error or
unparseable reply). -/
def failingEnv : JsEnv :=
  { jsDate := fun _ => none, today := 0, todayISO := "1970-01-01",
    comparator := fun _ _ _ => .failed }

/-- C4 counterexample: with an LC and a packing list carrying goods
descriptions and a comparator that mismatches exactly under the strict
invoice rule, the goods-description rule emits a critical issue: the packing
list is compared with the strict invoice rule at severity critical, not
leniently at severity major as the claim states. -/
theorem claim_C4_counterexample :
    (goodsDescriptionCheck kindSensitiveEnv
      [{ type := DocumentType.letter_of_credit, verdict := Verdict.GO, issues := [],
         extractedData := { goodsDescription := some "MURBAN CRUDE OIL" } },
       { type := DocumentType.packing_list, verdict := Verdict.GO, issues := [],
         extractedData := { goodsDescription := some "CRUDE OIL" } }]).map
      (fun i => (i.field, i.severity)) = [("goodsDescription", Severity.critical)] ∧
    (goodsComparisons kindSensitiveEnv "MURBAN CRUDE OIL"
      [{ doc := "PACKING LIST", docType := DocumentType.packing_list,
         value := "CRUDE OIL" }]).map (·.kind) = [GoodsKind.invoice] := by
  decide

/-- C4 (amended): in the goods-description rule the commercial invoice and
the packing list are compared with the strict invoice rule and a mismatch on
either is reported at severity critical, while every other compared document
(the bill of lading) is compared leniently at severity major; the single
emitted issue carries severity critical exactly when some failing comparison
was strict. -/
theorem claim_C4_amended_strictness (env : JsEnv) :
    (∀ (lcVal : String) (entries : List GoodsEntry),
      ∀ c ∈ goodsComparisons env lcVal entries,
      (c.kind = GoodsKind.invoice ↔
        (c.docType = DocumentType.commercial_invoice ∨ c.docType = DocumentType.packing_list)) ∧
      c.severity = (if c.kind = GoodsKind.invoice then Severity.critical else Severity.major)) ∧
    (∀ (docs : List DocumentResult) (i : CrossRefIssue), i ∈ goodsDescriptionCheck env docs →
      ∃ lcGoods, (goodsDescriptions docs).find? (fun g => g.docType == .letter_of_credit) =
          some lcGoods ∧
        i.severity = (if ((goodsComparisons env lcGoods.value
            ((goodsDescriptions docs).filter (fun g => !(g.docType == .letter_of_credit)))).filter
              (fun c => !c.matched)).any (fun c => c.severity == Severity.critical)
          then Severity.critical else Severity.major)) := by
  constructor
  · intro lcVal entries c hc
    simp only [goodsComparisons, List.mem_map] at hc
    obtain ⟨g, _, rfl⟩ := hc
    by_cases h : (g.docType == DocumentType.commercial_invoice ||
        g.docType == DocumentType.packing_list) = true
    · have h2 : g.docType = DocumentType.commercial_invoice ∨
          g.docType = DocumentType.packing_list := by
        simpa using h
      simp [h, h2]
    · have h2 : ¬(g.docType = DocumentType.commercial_invoice ∨
          g.docType = DocumentType.packing_list) := by
        simpa using h
      simp only [Bool.not_eq_true] at h
      simp [h, h2]
  · intro docs i hi
    simp only [goodsDescriptionCheck] at hi
    split at hi
    · split at hi
      · rename_i lcGoods heq
        split at hi
        · simp only [List.mem_singleton] at hi
          subst hi
          exact ⟨lcGoods, heq, rfl⟩
        · exact absurd hi (List.not_mem_nil i)
      · exact absurd hi (List.not_mem_nil i)
    · exact absurd hi (List.not_mem_nil i)

/-- C4 amended witness: the theorem applied at a concrete comparison record:
a bill of lading is compared with the lenient rule at severity major. -/
theorem claim_C4_amended_witness :
    ({ doc := "BILL OF LADING", docType := DocumentType.bill_of_lading,
       kind := GoodsKind.bl, severity := Severity.major, matched := true,
       reason := "BILL OF LADING doesn\x27t match LC goods description" } :
      GoodsComparison).severity = Severity.major := by
  have h := ((claim_C4_amended_strictness kindSensitiveEnv).1 "X"
    [{ doc := "BILL OF LADING", docType := DocumentType.bill_of_lading, value := "Y" }]
    { doc := "BILL OF LADING", docType := DocumentType.bill_of_lading,
      kind := GoodsKind.bl, severity := Severity.major, matched := true,
      reason := "BILL OF LADING doesn\x27t match LC goods description" } (by decide)).2
  exact h.trans (by decide)

/-- C6: a comparator failure (missing agent, transport error or unparseable
reply) is treated as a non-match with a manual-review fallback reason, and in
that situation the goods-description rule emits exactly one issue at the
document-type-appropriate severity instead of silently passing; a comparator
failure never yields a match. -/
theorem claim_C6_comparator_fail_closed (env : JsEnv) :
    (∀ (l o : String) (k : GoodsKind),
      env.comparator l o k = ComparatorOutcome.noAgent ∨
      env.comparator l o k = ComparatorOutcome.failed →
      (compareGoodsDescriptions env l o k).matched = false ∧
      ((compareGoodsDescriptions env l o k).reason =
          some "Unable to verify goods description - Haiku unavailable" ∨
       (compareGoodsDescriptions env l o k).reason =
          some "Unable to verify goods description - manual review recommended")) ∧
    (∀ dlc d : DocumentResult,
      dlc.type = DocumentType.letter_of_credit →
      isSpecified dlc.extractedData.goodsDescription = true →
      (d.type = DocumentType.commercial_invoice ∨ d.type = DocumentType.bill_of_lading ∨
       d.type = DocumentType.packing_list) →
      isSpecified d.extractedData.goodsDescription = true →
      (∀ k, env.comparator (dlc.extractedData.goodsDescription.getD "")
        (d.extractedData.goodsDescription.getD "") k = ComparatorOutcome.failed) →
      ∃ i, goodsDescriptionCheck env [dlc, d] = [i] ∧
        i.field = "goodsDescription" ∧
        i.severity = (if d.type = DocumentType.commercial_invoice ∨
            d.type = DocumentType.packing_list then Severity.critical else Severity.major)) := by
  constructor
  · intro l o k hf
    rcases hf with hf | hf <;> simp [compareGoodsDescriptions, hf]
  · intro dlc d hlc hspec1 htype hspec2 hfail
    have hgds : goodsDescriptions [dlc, d] =
        [{ doc := docDisplayName dlc.type, docType := dlc.type,
           value := dlc.extractedData.goodsDescription.getD "" },
         { doc := docDisplayName d.type, docType := d.type,
           value := d.extractedData.goodsDescription.getD "" }] := by
      rcases htype with h | h | h <;>
        simp [goodsDescriptions, List.filterMap, hlc, h, hspec1, hspec2,
          goodsDescRelevantDocTypes]
    rcases htype with h | h | h <;>
      simp [goodsDescriptionCheck, hgds, hlc, h, goodsComparisons, compareGoodsDescriptions,
        hfail, jsOrStr]

/-- C6 witness: the theorem applied with an always-failing comparator on a
concrete LC plus bill-of-lading package. -/
theorem claim_C6_witness :
    (compareGoodsDescriptions failingEnv "MURBAN CRUDE OIL" "CRUDE OIL" GoodsKind.bl).matched
        = false ∧
    goodsDescriptionCheck failingEnv
      [{ type := DocumentType.letter_of_credit, verdict := Verdict.GO, issues := [],
         extractedData := { goodsDescription := some "MURBAN CRUDE OIL" } },
       { type := DocumentType.bill_of_lading, verdict := Verdict.GO, issues := [],
         extractedData := { goodsDescription := some "CRUDE OIL" } }] ≠ [] := by
  constructor
  · exact ((claim_C6_comparator_fail_closed failingEnv).1 "MURBAN CRUDE OIL" "CRUDE OIL"
      GoodsKind.bl (Or.inr rfl)).1
  · obtain ⟨i, hi, -, -⟩ := (claim_C6_comparator_fail_closed failingEnv).2
      { type := DocumentType.letter_of_credit, verdict := Verdict.GO, issues := [],
        extractedData := { goodsDescription := some "MURBAN CRUDE OIL" } }
      { type := DocumentType.bill_of_lading, verdict := Verdict.GO, issues := [],
        extractedData := { goodsDescription := some "CRUDE OIL" } }
      rfl (by decide) (Or.inr (Or.inl rfl)) (by decide) (fun k => rfl)
    rw [hi]
    simp

/- ===== Substring lemmas ===== -/

theorem listStartsWith_self_append (n b : List Char) : listStartsWith n (n ++ b) = true := by
  induction n with
  | nil => rfl
  | cons c t ih => simp [listStartsWith, ih]

theorem listHasSeg_middle (a n b : List Char) : listHasSeg n (a ++ n ++ b) = true := by
  induction a with
  | nil =>
    cases n with
    | nil => cases b <;> simp [listHasSeg, listStartsWith]
    | cons c t =>
      simp only [List.nil_append, List.cons_append, listHasSeg, Bool.or_eq_true]
      exact Or.inl (by simp [listStartsWith, listStartsWith_self_append])
  | cons c t ih =>
    simp only [List.cons_append, listHasSeg, Bool.or_eq_true]
    exact Or.inr (by simpa [List.append_assoc] using ih)

theorem strContains_middle (a n b : String) : strContains (a ++ n ++ b) n = true := by
  simp only [strContains, String.data_append]
  exact listHasSeg_middle a.data n.data b.data

/- ===== Quantity-tolerance claim theorems (C3) ===== -/

/-- C3 counterexample: an LC stating the tolerance `.%` makes the tolerance
pattern match with the dots-only token `.`, whose `parseFloat` is `NaN`; the
quantity rule then emits no issue even though the invoice quantity deviates
100% from the LC quantity, far beyond the 5% default the claim prescribes
for a tolerance that does not parse. -/
theorem claim_C3_counterexample :
    quantityCheck
      (some { type := DocumentType.letter_of_credit, verdict := Verdict.GO, issues := [],
              extractedData := { quantity := some "100 MT",
                                 quantityTolerance := some ".%" } })
      [{ type := DocumentType.letter_of_credit, verdict := Verdict.GO, issues := [],
         extractedData := { quantity := some "100 MT", quantityTolerance := some ".%" } },
       { type := DocumentType.commercial_invoice, verdict := Verdict.GO, issues := [],
         extractedData := { quantity := some "200 MT" } }] = [] ∧
    tolSearch ".%".data = some ['.'] ∧
    parseFloatTok ['.'] = none ∧
    qLt (mkRat 5 100) (qDivJ (qAbs (qSub 200 100)) 100) = true := by
  decide

/-- C3 (amended): the tolerance is the percentage stated in the LC tolerance
field when the tolerance pattern matches and its numeric token parses,
otherwise the 5% default; when the pattern matches but the token is
unparseable (dots only, `NaN`), the comparison is disabled and no quantity
issue is ever emitted.  With a numeric tolerance, a document within the
tolerance of the first-seen quantity never contributes to an issue, any
document strictly outside it causes a single major quantity issue, and the
issue description reports the tolerance source. -/
theorem claim_C3_quantity_tolerance (lc : Option DocumentResult) (docs : List DocumentResult) :
    (lcToleranceSpec none = (some (mkRat 5 100), "UCP 600 default 5%")) ∧
    (∀ l : DocumentResult, truthyStr l.extractedData.quantityTolerance = none →
      lcToleranceSpec (some l) = (some (mkRat 5 100), "UCP 600 default 5%")) ∧
    (∀ (l : DocumentResult) (tolStr : String),
      truthyStr l.extractedData.quantityTolerance = some tolStr →
      tolSearch tolStr.data = none →
      lcToleranceSpec (some l) = (some (mkRat 5 100), "UCP 600 default 5%")) ∧
    (∀ (l : DocumentResult) (tolStr : String) (tok : List Char),
      truthyStr l.extractedData.quantityTolerance = some tolStr →
      tolSearch tolStr.data = some tok →
      lcToleranceSpec (some l) =
        ((parseFloatTok tok).map (fun v => qDivJ v 100), "LC specified " ++ tolStr)) ∧
    ((lcToleranceSpec lc).1 = none → quantityCheck lc docs = []) ∧
    (∀ t, (lcToleranceSpec lc).1 = some t →
      ∀ q0 rest, quantityEntries docs = q0 :: rest →
      ((quantityCheck lc docs = [] ↔
        rest = [] ∨ ∀ q ∈ q0 :: rest, qLt t (qDivJ (qAbs (qSub q.2.2 q0.2.2)) q0.2.2) = false) ∧
       (∀ i ∈ quantityCheck lc docs, i.severity = Severity.major ∧
          strContains i.description (lcToleranceSpec lc).2 = true) ∧
       (quantityCheck lc docs).length ≤ 1)) := by
  refine ⟨rfl, ?_, ?_, ?_, ?_, ?_⟩
  · intro l h
    simp [lcToleranceSpec, h]
  · intro l tolStr h1 h2
    simp [lcToleranceSpec, h1, h2]
  · intro l tolStr tok h1 h2
    simp [lcToleranceSpec, h1, h2]
  · intro hnone
    unfold quantityCheck
    split
    · rename_i q0 q1 rest heq
      simp only [hnone]
      simp
    · rfl
  · intro t ht q0 rest hentries
    cases rest with
    | nil =>
      have hq : quantityCheck lc docs = [] := by
        unfold quantityCheck
        split
        · rename_i a b c heq
          rw [hentries] at heq
          exact absurd heq (by simp)
        · rfl
      refine ⟨by simp [hq], by simp [hq], by simp [hq]⟩
    | cons q1 tl =>
      have hred : quantityCheck lc docs =
          (if 0 < ((q0 :: q1 :: tl).filter (fun q =>
              qLt t (qDivJ (qAbs (qSub q.2.2 q0.2.2)) q0.2.2))).length then
            [{ field := "quantity", documents := (q0 :: q1 :: tl).map (·.1),
               values := (q0 :: q1 :: tl).map (fun q => q.1 ++ ": " ++ q.2.1),
               severity := Severity.major,
               description := "Quantity mismatch across documents (exceeds " ++
                 qToFixed 0 (qMul ((lcToleranceSpec lc).1.getD 0) 100) ++ "% tolerance - " ++
                 (lcToleranceSpec lc).2 ++ ")" }]
          else []) := by
        unfold quantityCheck
        split
        · rename_i a b c heq
          rw [hentries] at heq
          injection heq with h1 h2
          injection h2 with h2 h3
          subst h1
          subst h2
          subst h3
          simp only [ht]
        · rename_i hnm
          exact absurd hentries (hnm q0 q1 tl)
      refine ⟨?_, ?_, ?_⟩
      · rw [hred]
        constructor
        · intro hempty
          right
          intro q hq
          by_contra hqt
          simp only [Bool.not_eq_false] at hqt
          have hmem : q ∈ (q0 :: q1 :: tl).filter (fun q =>
              qLt t (qDivJ (qAbs (qSub q.2.2 q0.2.2)) q0.2.2)) :=
            List.mem_filter.mpr ⟨hq, hqt⟩
          rw [if_pos (List.length_pos.mpr (List.ne_nil_of_mem hmem))] at hempty
          exact absurd hempty (by simp)
        · rintro (h | h)
          · exact absurd h (by simp)
          · rw [if_neg]
            simp only [not_lt, Nat.le_zero, List.length_eq_zero]
            rw [List.filter_eq_nil_iff]
            intro q hq
            simp [h q hq]
      · intro i hi
        rw [hred] at hi
        split at hi
        · simp only [List.mem_singleton] at hi
          subst hi
          exact ⟨rfl, strContains_middle _ _ _⟩
        · exact absurd hi (List.not_mem_nil i)
      · rw [hred]
        split <;> simp

/-- C3 witness: the theorem applied at a concrete package: an invoice
quantity of 104 against an LC quantity of 100 stays within the default 5%
tolerance and produces no issue. -/
theorem claim_C3_witness :
    quantityCheck
      (some { type := DocumentType.letter_of_credit, verdict := Verdict.GO, issues := [],
              extractedData := { quantity := some "100 MT" } })
      [{ type := DocumentType.letter_of_credit, verdict := Verdict.GO, issues := [],
         extractedData := { quantity := some "100 MT" } },
       { type := DocumentType.commercial_invoice, verdict := Verdict.GO, issues := [],
         extractedData := { quantity := some "104 MT" } }] = [] := by
  have h := (claim_C3_quantity_tolerance
    (some { type := DocumentType.letter_of_credit, verdict := Verdict.GO, issues := [],
            extractedData := { quantity := some "100 MT" } })
    [{ type := DocumentType.letter_of_credit, verdict := Verdict.GO, issues := [],
       extractedData := { quantity := some "100 MT" } },
     { type := DocumentType.commercial_invoice, verdict := Verdict.GO, issues := [],
       extractedData := { quantity := some "104 MT" } }]).2.2.2.2.2
    (mkRat 5 100) (by decide) ("LETTER OF CREDIT", "100 MT", (100 : ℚ))
    [("COMMERCIAL INVOICE", "104 MT", (104 : ℚ))] (by decide)
  exact h.1.mpr (Or.inr (by decide))

/- ===== Payment-mode claim theorems (C7) ===== -/

/-- Environment with no usable date runtime and a comparator that always
matches, used to exercise the payment-mode gating on concrete packages. -/
def plainEnv : JsEnv :=
  { jsDate := fun _ => none, today := 0, todayISO := "1970-01-01",
    comparator := fun _ _ _ => .parsed true none }

/-- C7: the payment mode is `lc` exactly when a letter-of-credit document is
present and `no_lc` otherwise; in `no_lc` mode the issue list contains no
contribution from the LC-only blocks (LC expiry and latest-shipment dates,
consignee/order-party, inspection company, insurance coverage, freight
terms, vessel-vs-LC, and the other LC-gated rules) but does contain the
customs-readiness block; in `lc` mode the LC blocks are present and the
customs block is absent; and in `no_lc` mode a missing commercial invoice or
bill of lading each yields a critical customsReadiness issue while a missing
certificate of origin or packing list each yields a major one. -/
theorem claim_C7_payment_mode (env : JsEnv) (docs : List DocumentResult) :
    ((crossReferenceStep env docs).paymentMode = PaymentMode.lc ↔
      ∃ d ∈ docs, d.type = DocumentType.letter_of_credit) ∧
    ((crossReferenceStep env docs).paymentMode = PaymentMode.no_lc ↔
      ¬ ∃ d ∈ docs, d.type = DocumentType.letter_of_credit) ∧
    ((crossReferenceStep env docs).paymentMode = PaymentMode.no_lc →
      (crossReferenceStep env docs).crossRefIssues =
        amountCheck (findDoc docs .letter_of_credit) (findDoc docs .commercial_invoice) ++
        portConsistencyIssues "portOfLoading" "Port of loading mismatch across documents"
          (portsOfLoading docs) ++
        portConsistencyIssues "portOfDischarge" "Port of discharge mismatch across documents"
          (portsOfDischarge docs) ++
        beneficiaryCheck docs ++
        lcNumberCheck docs ++
        quantityCheck (findDoc docs .letter_of_credit) docs ++
        goodsDescriptionCheck env docs ++
        customsCheckIssues docs ++
        shippedOnBoardIssues (findDoc docs .bill_of_lading) ++
        packingMathIssues docs ++
        ullageMathIssues docs ++
        invoiceMathIssues (findDoc docs .commercial_invoice)) ∧
    ((crossReferenceStep env docs).paymentMode = PaymentMode.lc →
      (crossReferenceStep env docs).crossRefIssues =
        amountCheck (findDoc docs .letter_of_credit) (findDoc docs .commercial_invoice) ++
        portConsistencyIssues "portOfLoading" "Port of loading mismatch across documents"
          (portsOfLoading docs) ++
        portConsistencyIssues "portOfDischarge" "Port of discharge mismatch across documents"
          (portsOfDischarge docs) ++
        beneficiaryCheck docs ++
        lcNumberCheck docs ++
        lcDateCheckIssues env (findDoc docs .letter_of_credit) (findDoc docs .bill_of_lading) ++
        quantityCheck (findDoc docs .letter_of_credit) docs ++
        goodsDescriptionCheck env docs ++
        (inspectionCheckIssues (findDoc docs .letter_of_credit) docs ++
         consigneeCheckIssues (findDoc docs .letter_of_credit) (findDoc docs .bill_of_lading) ++
         vesselCheckIssues (findDoc docs .letter_of_credit) (findDoc docs .bill_of_lading) ++
         insuranceCheckIssues (findDoc docs .letter_of_credit) (findDoc docs .commercial_invoice)
           (findDoc docs .insurance_certificate) ++
         loiCheckIssues docs (findDoc docs .bill_of_lading) ++
         wotCheckIssues docs (findDoc docs .bill_of_lading) ++
         exportLicenseCheckIssues env docs (findDoc docs .letter_of_credit) ++
         ownershipCheckIssues docs (findDoc docs .letter_of_credit)
           (findDoc docs .bill_of_lading) ++
         tankCertCheckIssues env docs (findDoc docs .bill_of_lading) ++
         vesselDocsCheckIssues docs (findDoc docs .bill_of_lading) ++
         freightCheckIssues (findDoc docs .letter_of_credit) (findDoc docs .bill_of_lading) ++
         carrierCheckIssues (findDoc docs .bill_of_lading) ++
         datingCheckIssues env docs (findDoc docs .bill_of_lading)) ++
        shippedOnBoardIssues (findDoc docs .bill_of_lading) ++
        packingMathIssues docs ++
        ullageMathIssues docs ++
        invoiceMathIssues (findDoc docs .commercial_invoice)) ∧
    ((crossReferenceStep env docs).paymentMode = PaymentMode.no_lc →
      (docs.any (fun d => d.type == DocumentType.commercial_invoice) = false →
        { field := "customsReadiness", documents := ["Package"],
          values := ["Missing Commercial Invoice"], severity := Severity.critical,
          description := "Commercial Invoice required for customs clearance" } ∈
          (crossReferenceStep env docs).crossRefIssues) ∧
      (docs.any (fun d => d.type == DocumentType.bill_of_lading) = false →
        { field := "customsReadiness", documents := ["Package"],
          values := ["Missing Bill of Lading"], severity := Severity.critical,
          description := "Bill of Lading required for cargo release" } ∈
          (crossReferenceStep env docs).crossRefIssues) ∧
      (docs.any (fun d => d.type == DocumentType.certificate_of_origin) = false →
        { field := "customsReadiness", documents := ["Package"],
          values := ["Missing Certificate of Origin"], severity := Severity.major,
          description := "Certificate of Origin typically required for customs clearance" } ∈
          (crossReferenceStep env docs).crossRefIssues) ∧
      (docs.any (fun d => d.type == DocumentType.packing_list) = false →
        { field := "customsReadiness", documents := ["Package"],
          values := ["Missing Packing List"], severity := Severity.major,
          description := "Packing List helps customs verify cargo contents" } ∈
          (crossReferenceStep env docs).crossRefIssues)) := by
  have hfind : (findDoc docs .letter_of_credit).isSome = true ↔
      ∃ d ∈ docs, d.type = DocumentType.letter_of_credit := by
    unfold findDoc
    rw [List.find?_isSome]
    constructor
    · rintro ⟨d, hd, hp⟩
      exact ⟨d, hd, by simpa using hp⟩
    · rintro ⟨d, hd, hp⟩
      exact ⟨d, hd, by simpa using hp⟩
  have hpm : (crossReferenceStep env docs).paymentMode =
      (if (findDoc docs .letter_of_credit).isSome then PaymentMode.lc
       else PaymentMode.no_lc) := by
    simp only [crossReferenceStep]
  by_cases hlc : (findDoc docs .letter_of_credit).isSome = true
  · have hpm2 : (crossReferenceStep env docs).paymentMode = PaymentMode.lc := by
      rw [hpm, if_pos hlc]
    refine ⟨?_, ?_, ?_, ?_, ?_⟩
    · rw [hpm2]
      simp only [true_iff]
      exact hfind.mp hlc
    · rw [hpm2]
      constructor
      · intro h
        exact absurd h (by simp)
      · intro h
        exact absurd (hfind.mp hlc) h
    · intro h
      rw [hpm2] at h
      exact absurd h (by simp)
    · intro _
      simp only [crossReferenceStep, hlc, if_pos, lcMiscCheckIssues]
      simp
    · intro h
      rw [hpm2] at h
      exact absurd h (by simp)
  · have hpm2 : (crossReferenceStep env docs).paymentMode = PaymentMode.no_lc := by
      rw [hpm, if_neg hlc]
    have hiss : (crossReferenceStep env docs).crossRefIssues =
        amountCheck (findDoc docs .letter_of_credit) (findDoc docs .commercial_invoice) ++
        portConsistencyIssues "portOfLoading" "Port of loading mismatch across documents"
          (portsOfLoading docs) ++
        portConsistencyIssues "portOfDischarge" "Port of discharge mismatch across documents"
          (portsOfDischarge docs) ++
        beneficiaryCheck docs ++
        lcNumberCheck docs ++
        quantityCheck (findDoc docs .letter_of_credit) docs ++
        goodsDescriptionCheck env docs ++
        customsCheckIssues docs ++
        shippedOnBoardIssues (findDoc docs .bill_of_lading) ++
        packingMathIssues docs ++
        ullageMathIssues docs ++
        invoiceMathIssues (findDoc docs .commercial_invoice) := by
      simp only [crossReferenceStep, Bool.not_eq_true] at hlc ⊢
      simp [hlc]
    refine ⟨?_, ?_, ?_, ?_, ?_⟩
    · rw [hpm2]
      constructor
      · intro h
        exact absurd h (by simp)
      · intro h
        exact absurd (hfind.mpr h) hlc
    · rw [hpm2]
      simp only [true_iff]
      intro h
      exact absurd (hfind.mpr h) hlc
    · intro _
      exact hiss
    · intro h
      rw [hpm2] at h
      exact absurd h (by simp)
    · intro _
      rw [hiss]
      refine ⟨?_, ?_, ?_, ?_⟩ <;>
        · intro habs
          simp only [List.mem_append]
          refine Or.inl (Or.inl (Or.inl (Or.inl (Or.inr ?_))))
          simp [customsCheckIssues, habs]

/-- C7 witness: on the empty package the payment mode is `no_lc` and the
critical missing-invoice customs issue is emitted; adding a letter-of-credit
document flips the payment mode to `lc`. -/
theorem claim_C7_witness :
    (crossReferenceStep plainEnv []).paymentMode = PaymentMode.no_lc ∧
    ({ field := "customsReadiness", documents := ["Package"],
       values := ["Missing Commercial Invoice"], severity := Severity.critical,
       description := "Commercial Invoice required for customs clearance" } ∈
       (crossReferenceStep plainEnv []).crossRefIssues) ∧
    (crossReferenceStep plainEnv
      [{ type := DocumentType.letter_of_credit, verdict := Verdict.GO, issues := [],
         extractedData := {} }]).paymentMode = PaymentMode.lc := by
  have h := claim_C7_payment_mode plainEnv []
  have hl := claim_C7_payment_mode plainEnv
    [{ type := DocumentType.letter_of_credit, verdict := Verdict.GO, issues := [],
       extractedData := {} }]
  have hpm : (crossReferenceStep plainEnv []).paymentMode = PaymentMode.no_lc :=
    h.2.1.mpr (by simp)
  exact ⟨hpm, (h.2.2.2.2 hpm).1 (by decide),
         hl.1.mpr ⟨{ type := DocumentType.letter_of_credit, verdict := Verdict.GO,
                     issues := [], extractedData := {} },
                   List.mem_singleton.mpr rfl, rfl⟩⟩

/- ===== Math-verification claim theorems (C8) ===== -/

/-- C8 counterexample: a packing list whose single row weighs 100 kg against
a printed total of 0 kg is 100 kg off — far beyond the 1 kg threshold — yet
produces no issue, because the printed total 0 fails the JavaScript
truthiness guard and the rule treats it like a missing total. -/
theorem claim_C8_counterexample :
    packingMathIssues
      [{ type := DocumentType.packing_list, verdict := Verdict.GO, issues := [],
         extractedData := { packingListItems := some [{ netWeight := 100 }],
                            packingListTotalNet := some 0 } }] = [] ∧
    qLt 1 (qAbs (qSub 100 0)) = true := by
  decide

/-- C8 (amended): each math-verification rule emits its critical issue
exactly when the document is present, its item array is present and
non-empty, its printed total passes the JavaScript truthiness guard (so a
printed total of 0 silently disables the rule), and the recomputed sum
differs from the printed total beyond the rule threshold (1 kg absolute for
packing lists, 0.1 relative percent for ullage volumes, both one dollar and
0.01 percent for invoices); the ullage percentage is computed against the
signed printed total, so a negative printed total also disables that rule;
each rule emits at most one issue and always at severity critical. -/
theorem claim_C8_math_verification (docs : List DocumentResult)
    (invoice : Option DocumentResult) :
    (packingMathIssues docs ≠ [] ↔ ∃ pl items total,
      findDoc docs .packing_list = some pl ∧
      pl.extractedData.packingListItems = some items ∧
      truthyQ pl.extractedData.packingListTotalNet = some total ∧
      0 < items.length ∧
      qLt 1 (qAbs (qSub (items.foldl (fun sum item => qAdd sum item.netWeight) 0) total)) =
        true) ∧
    (∀ pl, findDoc docs .packing_list = some pl →
      pl.extractedData.packingListTotalNet = some 0 → packingMathIssues docs = []) ∧
    (∀ i ∈ packingMathIssues docs, i.severity = Severity.critical ∧
      i.field = "packingListMath") ∧
    ((packingMathIssues docs).length ≤ 1) ∧
    (ullageMathIssues docs ≠ [] ↔ ∃ u tanks total,
      findDoc docs .ullage_report = some u ∧
      u.extractedData.ullageItems = some tanks ∧
      truthyQ u.extractedData.ullageTotalVolume = some total ∧
      0 < tanks.length ∧
      qLt (mkRat 1 10)
        (qMul (qDivJ (qAbs (qSub (tanks.foldl (fun sum tank => qAdd sum tank.volume) 0) total))
          total) 100) = true) ∧
    (∀ u, findDoc docs .ullage_report = some u →
      u.extractedData.ullageTotalVolume = some 0 → ullageMathIssues docs = []) ∧
    (∀ u tanks total, findDoc docs .ullage_report = some u →
      u.extractedData.ullageItems = some tanks →
      truthyQ u.extractedData.ullageTotalVolume = some total → total < 0 →
      ullageMathIssues docs = []) ∧
    (∀ i ∈ ullageMathIssues docs, i.severity = Severity.critical ∧
      i.field = "ullageMath") ∧
    ((ullageMathIssues docs).length ≤ 1) ∧
    (invoiceMathIssues invoice ≠ [] ↔ ∃ inv lineItems total,
      invoice = some inv ∧
      inv.extractedData.invoiceLineItems = some lineItems ∧
      truthyQ inv.extractedData.invoicePrintedTotal = some total ∧
      0 < lineItems.length ∧
      qLt 1 (qAbs (qSub (lineItems.foldl (fun sum item => qAdd sum item.lineTotal) 0) total)) =
        true ∧
      qLt (mkRat 1 100)
        (qMul (qDivJ (qAbs (qSub (lineItems.foldl (fun sum item => qAdd sum item.lineTotal) 0)
          total)) total) 100) = true) ∧
    (∀ inv, invoice = some inv →
      inv.extractedData.invoicePrintedTotal = some 0 → invoiceMathIssues invoice = []) ∧
    (∀ i ∈ invoiceMathIssues invoice, i.severity = Severity.critical ∧
      i.field = "invoiceMath") ∧
    ((invoiceMathIssues invoice).length ≤ 1) := by
  refine ⟨?_, ?_, ?_, ?_, ?_, ?_, ?_, ?_, ?_, ?_, ?_, ?_, ?_⟩
  · constructor
    · intro hne
      cases hfd : findDoc docs .packing_list with
      | none => simp [packingMathIssues, hfd] at hne
      | some pl =>
        cases hit : pl.extractedData.packingListItems with
        | none => simp [packingMathIssues, hfd, hit] at hne
        | some items =>
          cases htot : truthyQ pl.extractedData.packingListTotalNet with
          | none => simp [packingMathIssues, hfd, hit, htot] at hne
          | some total =>
            by_cases hlen : 0 < items.length
            · by_cases hq : qLt 1 (qAbs (qSub
                  (items.foldl (fun sum item => qAdd sum item.netWeight) 0) total)) = true
              · exact ⟨pl, items, total, rfl, hit, htot, hlen, hq⟩
              · rw [Bool.not_eq_true] at hq
                simp [packingMathIssues, hfd, hit, htot, hlen, hq] at hne
            · simp [packingMathIssues, hfd, hit, htot, hlen] at hne
    · rintro ⟨pl, items, total, hfd, hit, htot, hlen, hq⟩
      simp [packingMathIssues, hfd, hit, htot, hlen, hq]
  · intro pl hfd h0
    simp [packingMathIssues, hfd, h0, truthyQ]
  · intro i hi
    simp only [packingMathIssues] at hi
    split at hi
    · split at hi
      · split at hi
        · split at hi
          · simp only [List.mem_singleton] at hi
            subst hi
            exact ⟨rfl, rfl⟩
          · exact absurd hi (List.not_mem_nil i)
        · exact absurd hi (List.not_mem_nil i)
      · exact absurd hi (List.not_mem_nil i)
    · exact absurd hi (List.not_mem_nil i)
  · simp only [packingMathIssues]
    split
    · split
      · split
        · split <;> simp
        · simp
      · simp
    · simp
  · constructor
    · intro hne
      cases hfd : findDoc docs .ullage_report with
      | none => simp [ullageMathIssues, hfd] at hne
      | some u =>
        cases hit : u.extractedData.ullageItems with
        | none => simp [ullageMathIssues, hfd, hit] at hne
        | some tanks =>
          cases htot : truthyQ u.extractedData.ullageTotalVolume with
          | none => simp [ullageMathIssues, hfd, hit, htot] at hne
          | some total =>
            by_cases hlen : 0 < tanks.length
            · by_cases hq : qLt (mkRat 1 10) (qMul (qDivJ (qAbs (qSub
                  (tanks.foldl (fun sum tank => qAdd sum tank.volume) 0) total)) total) 100) =
                  true
              · exact ⟨u, tanks, total, rfl, hit, htot, hlen, hq⟩
              · rw [Bool.not_eq_true] at hq
                simp [ullageMathIssues, hfd, hit, htot, hlen, hq] at hne
            · simp [ullageMathIssues, hfd, hit, htot, hlen] at hne
    · rintro ⟨u, tanks, total, hfd, hit, htot, hlen, hq⟩
      simp [ullageMathIssues, hfd, hit, htot, hlen, hq]
  · intro u hfd h0
    simp [ullageMathIssues, hfd, h0, truthyQ]
  · intro u tanks total hfd hit htot hneg
    have hfalse : qLt (mkRat 1 10) (qMul (qDivJ (qAbs (qSub
        (tanks.foldl (fun sum tank => qAdd sum tank.volume) 0) total)) total) 100) = false := by
      rw [qLt_eq, qMul_eq, qDivJ_eq, qAbs_eq, qSub_eq, decide_eq_false_iff_not, not_lt]
      have h1 : |tanks.foldl (fun sum tank => qAdd sum tank.volume) 0 - total| / total ≤ 0 :=
        div_nonpos_of_nonneg_of_nonpos (abs_nonneg _) (le_of_lt hneg)
      have h2 : |tanks.foldl (fun sum tank => qAdd sum tank.volume) 0 - total| / total * 100 ≤
          0 := mul_nonpos_of_nonpos_of_nonneg h1 (by norm_num)
      calc |tanks.foldl (fun sum tank => qAdd sum tank.volume) 0 - total| / total * 100 ≤ 0 :=
            h2
        _ ≤ mkRat 1 10 := by rw [mkRat_as_div]; norm_num
    simp [ullageMathIssues, hfd, hit, htot, hfalse]
  · intro i hi
    simp only [ullageMathIssues] at hi
    split at hi
    · split at hi
      · split at hi
        · split at hi
          · simp only [List.mem_singleton] at hi
            subst hi
            exact ⟨rfl, rfl⟩
          · exact absurd hi (List.not_mem_nil i)
        · exact absurd hi (List.not_mem_nil i)
      · exact absurd hi (List.not_mem_nil i)
    · exact absurd hi (List.not_mem_nil i)
  · simp only [ullageMathIssues]
    split
    · split
      · split
        · split <;> simp
        · simp
      · simp
    · simp
  · constructor
    · intro hne
      cases hfd : invoice with
      | none => simp [invoiceMathIssues, hfd] at hne
      | some inv =>
        cases hit : inv.extractedData.invoiceLineItems with
        | none => simp [invoiceMathIssues, hfd, hit] at hne
        | some lineItems =>
          cases htot : truthyQ inv.extractedData.invoicePrintedTotal with
          | none => simp [invoiceMathIssues, hfd, hit, htot] at hne
          | some total =>
            by_cases hlen : 0 < lineItems.length
            · by_cases hq1 : qLt 1 (qAbs (qSub
                  (lineItems.foldl (fun sum item => qAdd sum item.lineTotal) 0) total)) = true
              · by_cases hq2 : qLt (mkRat 1 100) (qMul (qDivJ (qAbs (qSub
                    (lineItems.foldl (fun sum item => qAdd sum item.lineTotal) 0) total))
                    total) 100) = true
                · exact ⟨inv, lineItems, total, rfl, hit, htot, hlen, hq1, hq2⟩
                · rw [Bool.not_eq_true] at hq2
                  simp [invoiceMathIssues, hfd, hit, htot, hlen, hq2] at hne
              · rw [Bool.not_eq_true] at hq1
                simp [invoiceMathIssues, hfd, hit, htot, hlen, hq1] at hne
            · simp [invoiceMathIssues, hfd, hit, htot, hlen] at hne
    · rintro ⟨inv, lineItems, total, hfd, hit, htot, hlen, hq1, hq2⟩
      subst hfd
      simp [invoiceMathIssues, hit, htot, hlen, hq1, hq2]
  · intro inv hfd h0
    subst hfd
    simp [invoiceMathIssues, h0, truthyQ]
  · intro i hi
    simp only [invoiceMathIssues] at hi
    split at hi
    · split at hi
      · split at hi
        · split at hi
          · simp only [List.mem_singleton] at hi
            subst hi
            exact ⟨rfl, rfl⟩
          · exact absurd hi (List.not_mem_nil i)
        · exact absurd hi (List.not_mem_nil i)
      · exact absurd hi (List.not_mem_nil i)
    · exact absurd hi (List.not_mem_nil i)
  · simp only [invoiceMathIssues]
    split
    · split
      · split
        · split <;> simp
        · simp
      · simp
    · simp

/-- C8 witness: the characterization applied to the spec scenario — packing
rows summing to 19480 kg against a printed total of 19500 kg (20 kg
discrepancy, above the 1 kg threshold) yields an issue. -/
theorem claim_C8_witness :
    packingMathIssues
      [{ type := DocumentType.packing_list, verdict := Verdict.GO, issues := [],
         extractedData := { packingListItems := some [{ netWeight := 19480 }],
                            packingListTotalNet := some 19500 } }] ≠ [] := by
  have h := claim_C8_math_verification
    [{ type := DocumentType.packing_list, verdict := Verdict.GO, issues := [],
       extractedData := { packingListItems := some [{ netWeight := 19480 }],
                          packingListTotalNet := some 19500 } }] none
  exact h.1.mpr
    ⟨{ type := DocumentType.packing_list, verdict := Verdict.GO, issues := [],
       extractedData := { packingListItems := some [{ netWeight := 19480 }],
                          packingListTotalNet := some 19500 } },
     [{ netWeight := 19480 }], (19500 : ℚ),
     by decide, by decide, by decide, by decide, by decide⟩

/- ===== Issue-provenance claim theorems (C2) ===== -/

/-- C2 counterexample: the empty package supplies no document and no field
value at all, yet the cross-reference step emits four customsReadiness
issues — absence of documents does cause cross-reference issues. -/
theorem claim_C2_counterexample :
    (crossReferenceStep plainEnv []).crossRefIssues =
      [{ field := "customsReadiness", documents := ["Package"],
         values := ["Missing Commercial Invoice"], severity := Severity.critical,
         description := "Commercial Invoice required for customs clearance" },
       { field := "customsReadiness", documents := ["Package"],
         values := ["Missing Bill of Lading"], severity := Severity.critical,
         description := "Bill of Lading required for cargo release" },
       { field := "customsReadiness", documents := ["Package"],
         values := ["Missing Certificate of Origin"], severity := Severity.major,
         description := "Certificate of Origin typically required for customs clearance" },
       { field := "customsReadiness", documents := ["Package"],
         values := ["Missing Packing List"], severity := Severity.major,
         description := "Packing List helps customs verify cargo contents" }] := by
  decide

/-- C2 (amended): the six value-comparison rules (amount, two port fields,
beneficiary, LC number, quantity, goods description) fire only when at least
two documents supplied a specified value for the compared field; but three
rule families are absence-triggered exceptions: the no_lc customs-readiness
rules fire on missing documents, the carrier-name rule fires when the B/L
itself lacks a carrier name, and the LC-expiry rule fires from the LC alone
against the clock, with no second document involved. -/
theorem claim_C2_issue_provenance :
    (∀ lc invoice, amountCheck lc invoice ≠ [] →
      2 ≤ (amountEntries lc invoice).length) ∧
    (∀ f d ports, portConsistencyIssues f d ports ≠ [] → 2 ≤ ports.length) ∧
    (∀ docs, beneficiaryCheck docs ≠ [] → 2 ≤ (beneficiaryEntries docs).length) ∧
    (∀ docs, lcNumberCheck docs ≠ [] → 2 ≤ (lcNumberEntries docs).length) ∧
    (∀ lc docs, quantityCheck lc docs ≠ [] → 2 ≤ (quantityEntries docs).length) ∧
    (∀ env docs, goodsDescriptionCheck env docs ≠ [] →
      2 ≤ (goodsDescriptions docs).length) ∧
    (∀ docs, (∀ d ∈ docs, d.type ≠ DocumentType.commercial_invoice) →
      customsCheckIssues docs ≠ []) ∧
    (∀ b, truthyStr b.extractedData.carrierName = none →
      carrierCheckIssues (some b) ≠ []) ∧
    (∀ env l ed expMs, truthyStr l.extractedData.expiryDate = some ed →
      env.jsDate ed = some expMs → qLt expMs env.today = true →
      lcDateCheckIssues env (some l) none ≠ []) := by
  refine ⟨?_, ?_, ?_, ?_, ?_, ?_, ?_, ?_, ?_⟩
  · intro lc invoice hne
    by_cases h : 2 ≤ (amountEntries lc invoice).length
    · exact h
    · exact absurd (by simp [amountCheck, h]) hne
  · intro f d ports hne
    match ports with
    | [] => exact absurd rfl hne
    | [p] => exact absurd rfl hne
    | p0 :: p1 :: rest => simp
  · intro docs hne
    unfold beneficiaryCheck at hne
    split at hne
    · rename_i b0 b1 rest heq
      rw [heq]
      simp
    · exact absurd rfl hne
  · intro docs hne
    unfold lcNumberCheck at hne
    split at hne
    · rename_i l0 l1 rest heq
      rw [heq]
      simp
    · exact absurd rfl hne
  · intro lc docs hne
    unfold quantityCheck at hne
    split at hne
    · rename_i q0 q1 rest heq
      rw [heq]
      simp
    · exact absurd rfl hne
  · intro env docs hne
    by_cases h : 2 ≤ (goodsDescriptions docs).length
    · exact h
    · exact absurd (by simp [goodsDescriptionCheck, h]) hne
  · intro docs habs
    have hany : docs.any (fun d => d.type == DocumentType.commercial_invoice) = false := by
      rw [List.any_eq_false]
      intro d hd
      simp [habs d hd]
    simp [customsCheckIssues, hany]
  · intro b hname
    cases hsig : b.extractedData.carrierSignature == some false <;>
      simp [carrierCheckIssues, hname, hsig]
  · intro env l ed expMs hed hms htoday
    simp [lcDateCheckIssues, hed, hms, htoday]

/-- C2 witness: a B/L with no carrier name — a single document with a missing
field value — produces a cross-reference issue. -/
theorem claim_C2_witness :
    carrierCheckIssues
      (some { type := DocumentType.bill_of_lading, verdict := Verdict.GO, issues := [],
              extractedData := {} }) ≠ [] := by
  exact claim_C2_issue_provenance.2.2.2.2.2.2.2.1
    { type := DocumentType.bill_of_lading, verdict := Verdict.GO, issues := [],
      extractedData := {} } (by decide)

end PackageValidation
